import Mathlib

/-! # The LanguageTranslatorV3 binding of the Watson Go SDK

A shallow embedding of `languagetranslatorv3/language_translator_v3.go`.

* Go pointers (`*string`, `*bool`, `*os.File`, `*TranslateOptions`, ...) are `Option`s,
  `none` being the nil pointer; dereferencing `none` is a panic.
* A Go `map[string]string` is the list of its entries in the order the `range` loop of the
  execution at hand visits them.
* The package `core` is not among the sources.  The request builder and the service
  constructor are modelled from the specification (each such definition says so); what the
  specification leaves open (the validators, `StringNilMapper`, the URL parser, the multipart
  boundary generator, the transport behind `service.Request`) is a field of `Core`, so that
  every theorem holds for every behaviour of those parts.
-/

namespace GoSDK

/-! ## Errors and panics -/

/-- Modelled from the spec: the error types of `core` are not among the sources.  The kinds are
the taxonomy of section 7, with two more for the errors the validators and `fmt.Errorf`
produce. -/
inductive ErrorKind
  | ConfigurationError
  | AuthenticationError
  | InvalidPathError
  | EncodingError
  | SerializationError
  | TransportError
  | ServiceError
  | DecodingError
  | ValidationError
  | Errorf
  deriving DecidableEq, Repr

/-- A non-nil Go `error` value. -/
structure Error where
  kind : ErrorKind
  message : String
  deriving DecidableEq, Repr

/-- Why a function body stopped before its last statement: it returned a non-nil `error`, or it
panicked. -/
inductive Abort
  | err (e : Error)
  | panic (reason : String)
  deriving DecidableEq, Repr

/-- The runtime panic of dereferencing a nil pointer. -/
def nilDereference : Abort :=
  .panic "invalid memory address or nil pointer dereference"

/-- Go's `fmt.Errorf` with a constant format string. -/
def Errorf (message : String) : Error :=
  ⟨.Errorf, message⟩

/-- Go's `fmt.Sprint` at a `string` argument. -/
def SprintString (s : String) : String := s

/-- Go's `fmt.Sprint` at a `bool` argument. -/
def SprintBool (b : Bool) : String :=
  if b then "true" else "false"

/-! ## Option structs -/

/-- An open `*os.File`, identified by the name it was opened under. -/
structure OSFile where
  name : String
  deriving DecidableEq, Repr

/-- The service options. -/
structure LanguageTranslatorV3Options where
  Version : String
  URL : String
  Username : String
  Password : String
  IAMApiKey : String
  IAMAccessToken : String
  IAMURL : String
  deriving DecidableEq, Repr

/-- The options of `core.NewWatsonService`, with the fields the binding sets. -/
structure ServiceOptions where
  URL : String
  Version : String
  Username : String
  Password : String
  IAMApiKey : String
  IAMAccessToken : String
  IAMURL : String
  deriving DecidableEq, Repr

/-- The createModel options. -/
structure CreateModelOptions where
  BaseModelID : Option String
  Name : Option String
  ForcedGlossary : Option OSFile
  ForcedGlossaryFilename : Option String
  ParallelCorpus : Option OSFile
  ParallelCorpusFilename : Option String
  Headers : List (String × String)
  deriving DecidableEq, Repr

/-- The deleteModel options. -/
structure DeleteModelOptions where
  ModelID : Option String
  Headers : List (String × String)
  deriving DecidableEq, Repr

/-- The getModel options. -/
structure GetModelOptions where
  ModelID : Option String
  Headers : List (String × String)
  deriving DecidableEq, Repr

/-- The identify options. -/
structure IdentifyOptions where
  Text : Option String
  Headers : List (String × String)
  deriving DecidableEq, Repr

/-- The listIdentifiableLanguages options. -/
structure ListIdentifiableLanguagesOptions where
  Headers : List (String × String)
  deriving DecidableEq, Repr

/-- The listModels options. -/
structure ListModelsOptions where
  Source : Option String
  Target : Option String
  DefaultModels : Option Bool
  Headers : List (String × String)
  deriving DecidableEq, Repr

/-- The translate options; `Text` is a slice, `none` being the nil slice. -/
structure TranslateOptions where
  Text : Option (List String)
  ModelID : Option String
  Source : Option String
  Target : Option String
  Headers : List (String × String)
  deriving DecidableEq, Repr

/-- The value handed to the validators of `core`, whose parameter has type `interface{}`: a
pointer to one of the seven option structs. -/
inductive AnyOptions
  | Translate (p : Option TranslateOptions)
  | Identify (p : Option IdentifyOptions)
  | ListIdentifiableLanguages (p : Option ListIdentifiableLanguagesOptions)
  | CreateModel (p : Option CreateModelOptions)
  | DeleteModel (p : Option DeleteModelOptions)
  | GetModel (p : Option GetModelOptions)
  | ListModels (p : Option ListModelsOptions)
  deriving DecidableEq, Repr

/-! ## Response models -/

/-- A translation. -/
structure Translation where
  TranslationOutput : Option String

/-- The result of `Translate`. -/
structure TranslationResult where
  WordCount : Option Int
  CharacterCount : Option Int
  Translations : List Translation

/-- An identified language. -/
structure IdentifiedLanguage where
  Language : Option String
  Confidence : Option Float

/-- The result of `Identify`. -/
structure IdentifiedLanguages where
  Languages : List IdentifiedLanguage

/-- An identifiable language. -/
structure IdentifiableLanguage where
  Language : Option String
  Name : Option String

/-- The result of `ListIdentifiableLanguages`. -/
structure IdentifiableLanguages where
  Languages : List IdentifiableLanguage

/-- The result of `DeleteModel`. -/
structure DeleteModelResult where
  Status : Option String

/-- The response payload for models. -/
structure TranslationModel where
  ModelID : Option String
  Name : Option String
  Source : Option String
  Target : Option String
  BaseModelID : Option String
  Domain : Option String
  Customizable : Option Bool
  DefaultModel : Option Bool
  Owner : Option String
  Status : Option String

/-- The response type for listing existing translation models. -/
structure TranslationModels where
  Models : List TranslationModel

/-- A non-nil `interface{}` in the `Result` field of a response: a dynamic type together with a
pointer of that type, which may itself be nil.  `Other` stands for every dynamic type that is
not a pointer to one of the six response models. -/
inductive ResultValue
  | TranslationResult (p : Option TranslationResult)
  | IdentifiedLanguages (p : Option IdentifiedLanguages)
  | IdentifiableLanguages (p : Option IdentifiableLanguages)
  | TranslationModel (p : Option TranslationModel)
  | DeleteModelResult (p : Option DeleteModelResult)
  | TranslationModels (p : Option TranslationModels)
  | Other (typeName : String)

/-- The dynamic types an interface value of the model can have. -/
inductive GoType
  | TranslationResult
  | IdentifiedLanguages
  | IdentifiableLanguages
  | TranslationModel
  | DeleteModelResult
  | TranslationModels
  | Other (typeName : String)
  deriving DecidableEq, Repr

/-- The dynamic type of an interface value. -/
def ResultValue.dynamicType : ResultValue → GoType
  | .TranslationResult _ => .TranslationResult
  | .IdentifiedLanguages _ => .IdentifiedLanguages
  | .IdentifiableLanguages _ => .IdentifiableLanguages
  | .TranslationModel _ => .TranslationModel
  | .DeleteModelResult _ => .DeleteModelResult
  | .TranslationModels _ => .TranslationModels
  | .Other n => .Other n

/-- Whether the pointer inside an interface value is nil. -/
def ResultValue.isNilPointer : ResultValue → Bool
  | .TranslationResult p => p.isNone
  | .IdentifiedLanguages p => p.isNone
  | .IdentifiableLanguages p => p.isNone
  | .TranslationModel p => p.isNone
  | .DeleteModelResult p => p.isNone
  | .TranslationModels p => p.isNone
  | .Other _ => false

/-- Modelled from the spec: `core.DetailedResponse` is not among the sources.  "Status code,
response headers, and a decoded result value"; `Result` is the field the casts read, an
`interface{}`, `none` being the nil interface. -/
structure DetailedResponse where
  StatusCode : Int
  Headers : List (String × List String)
  Result : Option ResultValue

/-! ## The request builder of `core` -/

/-- Modelled from the spec: the HTTP verb of a request spec; `core.GET`, `core.POST` and
`core.DELETE` are the constants the binding uses. -/
inductive Verb
  | GET
  | POST
  | PUT
  | PATCH
  | DELETE
  | HEAD
  deriving DecidableEq, Repr

/-- A value stored under a key of the `map[string]interface{}` that becomes a JSON body: a
`[]string`, a `*string`, or a value `encoding/json` cannot serialize (a channel, a function). -/
inductive BodyValue
  | stringSlice (xs : List String)
  | stringPointer (s : String)
  | unserializable
  deriving DecidableEq, Repr

/-- Modelled from the spec: one multipart part of a form-data body, "{fieldName, filename?,
contentType, bytes}".  The binding always passes a filename (a `string`) and an `*os.File` as
the contents. -/
structure FormPart where
  fieldName : String
  filename : String
  contentType : String
  contents : OSFile
  deriving DecidableEq, Repr

/-- Modelled from the spec: the body variant of a request spec, "{None, JSON(value),
FormData(ordered list of parts), RawBody(contentType, bytes)}".  The raw content is the
`*string` the binding passes. -/
inductive BodyVariant
  | None
  | JSON (value : List (String × BodyValue))
  | FormData (parts : List FormPart)
  | RawBody (contentType : String) (content : Option String)
  deriving DecidableEq, Repr

/-- Modelled from the spec: a constructed URL, kept as the parts it is made of: the base URL,
the "ordered sequence of path segments" and the "ordered sequence of path parameters
interpolated positionally into the segments". -/
structure URLParts where
  serviceURL : String
  pathSegments : List String
  pathParameters : List String
  deriving DecidableEq, Repr

/-- Modelled from the spec: `core.RequestBuilder` is not among the sources.  It is the request
spec of section 3: verb, URL, query, headers and a body variant.  `URL` is `none` until a URL
has been constructed. -/
structure RequestBuilder where
  Method : Verb
  URL : Option URLParts
  Header : List (String × String)
  Query : List (String × String)
  Body : BodyVariant
  deriving DecidableEq, Repr

/-- Modelled from the spec: the finalized request that `Build` returns, "an immutable request
value ready for transport". -/
structure HTTPRequest where
  Method : Verb
  URL : URLParts
  Header : List (String × String)
  Query : List (String × String)
  Body : BodyVariant
  deriving DecidableEq, Repr

/-- Assignment `m[key] = value` on a map kept as its list of entries: an entry with the key is
overwritten where it stands, otherwise the entry is added. -/
def mapSet {β : Type} (key : String) (value : β) : List (String × β) → List (String × β)
  | [] => [(key, value)]
  | (k, v) :: rest =>
    if k = key then (key, value) :: rest else (k, v) :: mapSet key value rest

/-- The lookup `m[key]` on a map kept as its list of entries. -/
def mapGet {β : Type} (key : String) : List (String × β) → Option β
  | [] => none
  | (k, v) :: rest => if k = key then some v else mapGet key rest

/-- Modelled from the spec: the active credentials of a service instance, the "tagged union of
{BasicAuth{username, password}, IAMAuth{apiKey, tokenURL, cachedAccessToken?, cachedExpiry?},
PresetAccessToken{token}}". -/
inductive Credentials
  | BasicAuth (username password : String)
  | IAMAuth (apiKey tokenURL : String) (cachedAccessToken : Option String)
      (cachedExpiry : Option Nat)
  | PresetAccessToken (token : String)
  deriving DecidableEq, Repr

/-- Modelled from the spec: `core.WatsonService` is not among the sources.  It holds the
options it was made from (the binding reads `service.Options.URL` and
`service.Options.Version`), the active credentials and the name of the service. -/
structure WatsonService where
  Options : ServiceOptions
  Credentials : Credentials
  serviceName : String
  deriving DecidableEq, Repr

/-- The LanguageTranslatorV3 service. -/
structure LanguageTranslatorV3 where
  service : WatsonService
  deriving DecidableEq, Repr

/-- The parts of `core`, and of the libraries under it, that neither the sources nor the
specification determine.

* `ValidateNotNil object message` and `ValidateStruct param paramName` return `none` for the nil
  `error`;
* `StringNilMapper` turns a `*string` into a `string`;
* `URLParses serviceURL pathSegments pathParameters` tells whether the URL joined from these
  parts parses;
* `boundary` is the boundary generated for a multipart body;
* `Request` is `service.Request`: the pair of response and error it returns for a finalized
  request and a decode target. -/
structure Core where
  ValidateNotNil : AnyOptions → String → Option Error
  ValidateStruct : AnyOptions → String → Option Error
  StringNilMapper : Option String → String
  URLParses : String → List String → List String → Bool
  boundary : String
  Request : WatsonService → HTTPRequest → ResultValue → Option DetailedResponse × Option Error

/-- Modelled from the spec: `core.NewRequestBuilder` is not among the sources.  "`newBuilder(verb)
-> RequestSpec`: starts with empty collections." -/
def NewRequestBuilder (method : Verb) : RequestBuilder :=
  { Method := method, URL := none, Header := [], Query := [], Body := .None }

/-- Modelled from the spec: `RequestBuilder.ConstructHTTPURL` is not among the sources.  The URL
is the base URL joined with the segments, the path parameters interpolated in the order they
were supplied; "supplying more parameters than placeholders fails with `InvalidPathError`", one
parameter going with one segment, and so does a URL that does not parse.  The text of the URL is
not formed here: the parts are kept. -/
def RequestBuilder.ConstructHTTPURL (core : Core) (builder : RequestBuilder)
    (serviceURL : String) (pathSegments pathParameters : List String) :
    Except Error RequestBuilder :=
  if pathSegments.length < pathParameters.length then
    .error ⟨.InvalidPathError, "more path parameters than path segments"⟩
  else if core.URLParses serviceURL pathSegments pathParameters then
    .ok { builder with URL := some ⟨serviceURL, pathSegments, pathParameters⟩ }
  else
    .error ⟨.InvalidPathError, "the URL does not parse"⟩

/-- Modelled from the spec: `RequestBuilder.AddHeader` is not among the sources.  "Later calls
with the same key overwrite earlier ones for headers." -/
def RequestBuilder.AddHeader (builder : RequestBuilder) (name value : String) : RequestBuilder :=
  { builder with Header := mapSet name value builder.Header }

/-- Modelled from the spec: `RequestBuilder.AddQuery` is not among the sources.  "For query
parameters [...] multiple entries under the same key are preserved (not overwritten)": the entry
is appended. -/
def RequestBuilder.AddQuery (builder : RequestBuilder) (name value : String) : RequestBuilder :=
  { builder with Query := builder.Query ++ [(name, value)] }

/-- Modelled from the spec: `RequestBuilder.SetBodyContentJSON` is not among the sources.
"`setJSONBody(value)`: serializes `value` [...], sets `Content-Type: application/json` unless
already set by caller headers, and attaches it as the body.  Fails with `SerializationError` on
non-serializable input."  A body set before is replaced. -/
def RequestBuilder.SetBodyContentJSON (builder : RequestBuilder)
    (bodyContent : List (String × BodyValue)) : Except Error RequestBuilder :=
  if bodyContent.any (fun entry => entry.2 = BodyValue.unserializable) then
    .error ⟨.SerializationError, "the body does not serialize to JSON"⟩
  else
    .ok { builder with
      Header :=
        match mapGet "Content-Type" builder.Header with
        | some _ => builder.Header
        | none => mapSet "Content-Type" "application/json" builder.Header
      Body := .JSON bodyContent }

/-- Modelled from the spec: `RequestBuilder.SetBodyContent` is not among the sources.  A non-nil
`jsonContent` or `jsonPatchContent` is set as by `setJSONBody`; otherwise the call is
`setRawBody(contentType, bytes)` with the non-JSON content: "setting one after another replaces
the previous, but setting raw body after form parts is rejected with `EncodingError`". -/
def RequestBuilder.SetBodyContent (builder : RequestBuilder) (contentType : String)
    (jsonContent jsonPatchContent : Option (List (String × BodyValue)))
    (nonJSONContent : Option String) : Except Error RequestBuilder :=
  match jsonContent with
  | some value => builder.SetBodyContentJSON value
  | none =>
    match jsonPatchContent with
    | some value => builder.SetBodyContentJSON value
    | none =>
      match builder.Body with
      | .FormData _ => .error ⟨.EncodingError, "form parts are already set"⟩
      | _ => .ok { builder with Body := .RawBody contentType nonJSONContent }

/-- Modelled from the spec: `RequestBuilder.AddFormData` is not among the sources.
"`setFormDataPart(fieldName, filename?, contentType, bytes)`: appends one multipart part;
repeated calls accumulate parts rather than replacing [...].  Automatically switches
`Content-Type` to `multipart/form-data; boundary=<generated>` once any part is added; fails with
`EncodingError` if a raw-body was already set", and "setting a JSON body then a form-data part
on the same builder fails with `EncodingError`". -/
def RequestBuilder.AddFormData (core : Core) (builder : RequestBuilder)
    (fieldName fileName contentType : String) (contents : OSFile) :
    Except Error RequestBuilder :=
  let part : FormPart := ⟨fieldName, fileName, contentType, contents⟩
  let header := mapSet "Content-Type" ("multipart/form-data; boundary=" ++ core.boundary)
    builder.Header
  match builder.Body with
  | .RawBody _ _ => .error ⟨.EncodingError, "a raw body is already set"⟩
  | .JSON _ => .error ⟨.EncodingError, "a JSON body is already set"⟩
  | .None => .ok { builder with Header := header, Body := .FormData [part] }
  | .FormData parts => .ok { builder with Header := header, Body := .FormData (parts ++ [part]) }

/-- Modelled from the spec: `RequestBuilder.Build` is not among the sources.  "`build() ->
HTTPRequest`: finalizes headers [...], finalizes query string, and returns an immutable request
value ready for transport.  Fails with `InvalidPathError` if no URL was constructed."  The
binding hands every header, the caller's included, to `AddHeader`, so `Build` has nothing to
merge. -/
def RequestBuilder.Build (builder : RequestBuilder) : Except Error HTTPRequest :=
  match builder.URL with
  | none => .error ⟨.InvalidPathError, "no URL was constructed"⟩
  | some url =>
    .ok { Method := builder.Method, URL := url, Header := builder.Header,
          Query := builder.Query, Body := builder.Body }

/-- A call statement `builder.F(...)` whose results are dropped.  The builder is a pointer, so
the statements after it see the state the call left: the new state, or the old one when the call
failed before changing anything. -/
def dropResult (builder : RequestBuilder) (result : Except Error RequestBuilder) :
    RequestBuilder :=
  match result with
  | .ok updated => updated
  | .error _ => builder

/-- The loop `for headerName, headerValue := range headers { builder.AddHeader(headerName,
headerValue) }`. -/
def addHeaders (builder : RequestBuilder) (headers : List (String × String)) : RequestBuilder :=
  headers.foldl (fun b entry => b.AddHeader entry.1 entry.2) builder

/-! ## Service construction -/

/-- Modelled from the spec: the credential modes that the options specify in full.  "BasicAuth
requires both username and password non-empty", IAM an API key, a preset access token the
token. -/
def credentialModes (options : ServiceOptions) : List Credentials :=
  (if options.Username ≠ "" ∧ options.Password ≠ "" then
    [Credentials.BasicAuth options.Username options.Password] else []) ++
  (if options.IAMApiKey ≠ "" then
    [Credentials.IAMAuth options.IAMApiKey options.IAMURL none none] else []) ++
  (if options.IAMAccessToken ≠ "" then
    [Credentials.PresetAccessToken options.IAMAccessToken] else [])

/-- Modelled from the spec: `core.NewWatsonService` is not among the sources.  It "validates
exactly one credential mode is fully specified at construction; fails with `ConfigurationError`
if neither Basic nor IAM nor a preset token is present, or if a mode is partially specified
(e.g., username without password)".  The instance keeps the options it was given. -/
def NewWatsonService (options : ServiceOptions) (serviceName : String) :
    Except Error WatsonService :=
  if (options.Username ≠ "" ∧ options.Password = "") ∨
      (options.Username = "" ∧ options.Password ≠ "") then
    .error ⟨.ConfigurationError, "a credential mode is partially specified"⟩
  else
    match credentialModes options with
    | [] => .error ⟨.ConfigurationError, "no credentials are present"⟩
    | [credentials] => .ok ⟨options, credentials, serviceName⟩
    | _ :: _ :: _ => .error ⟨.ConfigurationError, "more than one credential mode is specified"⟩

/-- `NewLanguageTranslatorV3`, for any service constructor `newWatsonService` in the place of
`core.NewWatsonService`.  The first component is the caller's options struct after the call
(the function writes the default URL into it), the second what the function returns: the
instance, or `Abort.err e` for the pair of a nil instance and the error `e`. -/
def NewLanguageTranslatorV3
    (newWatsonService : ServiceOptions → String → Except Error WatsonService)
    (options : Option LanguageTranslatorV3Options) :
    Option LanguageTranslatorV3Options × Except Abort LanguageTranslatorV3 :=
  match options with
  | none => (none, .error nilDereference)
  | some options =>
    let options := if options.URL = "" then
      { options with URL := "https://gateway.watsonplatform.net/language-translator/api" }
      else options
    let serviceOptions : ServiceOptions :=
      { URL := options.URL
        Version := options.Version
        Username := options.Username
        Password := options.Password
        IAMApiKey := options.IAMApiKey
        IAMAccessToken := options.IAMAccessToken
        IAMURL := options.IAMURL }
    match newWatsonService serviceOptions "language_translator" with
    | .error serviceErr => (some options, .error (.err serviceErr))
    | .ok service => (some options, .ok { service := service })

/-! ## The operations -/

/-- What a call of an operation returned: the pair of response and error, or a panic. -/
inductive Returned
  | values (response : Option DetailedResponse) (err : Option Error)
  | panicked (reason : String)

/-- The outcome of a call of an operation: the invocations of `service.Request` it made, in
order, each with the request and the decode target it passed, and what it returned. -/
structure Outcome where
  sent : List (HTTPRequest × ResultValue)
  returned : Returned

/-- The statements every operation ends with, after its request spec is complete (`prepared`,
or the reason the operation stopped before): `builder.Build()`, whose error is returned with a
nil response, then `service.Request(request, target)`, whose results are returned. -/
def buildAndRequest (core : Core) (languageTranslator : LanguageTranslatorV3)
    (target : ResultValue) (prepared : Except Abort RequestBuilder) : Outcome :=
  match prepared with
  | .error (.panic reason) => ⟨[], .panicked reason⟩
  | .error (.err err) => ⟨[], .values none (some err)⟩
  | .ok builder =>
    match builder.Build with
    | .error err => ⟨[], .values none (some err)⟩
    | .ok request =>
      let (response, err) := core.Request languageTranslator.service request target
      ⟨[(request, target)], .values response err⟩

/-- The request spec `Translate` hands to `builder.Build()`: the function up to that call. -/
def TranslateBuilder (core : Core) (languageTranslator : LanguageTranslatorV3)
    (translateOptions : Option TranslateOptions) : Except Abort RequestBuilder :=
  match core.ValidateNotNil (.Translate translateOptions) "translateOptions cannot be nil" with
  | some err => .error (.err err)
  | none =>
  match core.ValidateStruct (.Translate translateOptions) "translateOptions" with
  | some err => .error (.err err)
  | none =>
  match translateOptions with
  | none => .error nilDereference
  | some options =>
    let pathSegments := ["v3/translate"]
    let pathParameters : List String := []
    let builder := NewRequestBuilder .POST
    let builder := dropResult builder (builder.ConstructHTTPURL core
      languageTranslator.service.Options.URL pathSegments pathParameters)
    let builder := addHeaders builder options.Headers
    let builder := builder.AddHeader "Accept" "application/json"
    let builder := builder.AddHeader "Content-Type" "application/json"
    let builder := builder.AddQuery "version" languageTranslator.service.Options.Version
    let body : List (String × BodyValue) := []
    let body := match options.Text with
      | some text => mapSet "text" (.stringSlice text) body
      | none => body
    let body := match options.ModelID with
      | some modelID => mapSet "model_id" (.stringPointer modelID) body
      | none => body
    let body := match options.Source with
      | some source => mapSet "source" (.stringPointer source) body
      | none => body
    let body := match options.Target with
      | some target => mapSet "target" (.stringPointer target) body
      | none => body
    match builder.SetBodyContentJSON body with
    | .error err => .error (.err err)
    | .ok builder => .ok builder

/-- Translate. -/
def Translate (core : Core) (languageTranslator : LanguageTranslatorV3)
    (translateOptions : Option TranslateOptions) : Outcome :=
  buildAndRequest core languageTranslator (.TranslationResult (some ⟨none, none, []⟩))
    (TranslateBuilder core languageTranslator translateOptions)

/-- The request spec `Identify` hands to `builder.Build()`: the function up to that call. -/
def IdentifyBuilder (core : Core) (languageTranslator : LanguageTranslatorV3)
    (identifyOptions : Option IdentifyOptions) : Except Abort RequestBuilder :=
  match core.ValidateNotNil (.Identify identifyOptions) "identifyOptions cannot be nil" with
  | some err => .error (.err err)
  | none =>
  match core.ValidateStruct (.Identify identifyOptions) "identifyOptions" with
  | some err => .error (.err err)
  | none =>
  match identifyOptions with
  | none => .error nilDereference
  | some options =>
    let pathSegments := ["v3/identify"]
    let pathParameters : List String := []
    let builder := NewRequestBuilder .POST
    let builder := dropResult builder (builder.ConstructHTTPURL core
      languageTranslator.service.Options.URL pathSegments pathParameters)
    let builder := addHeaders builder options.Headers
    let builder := builder.AddHeader "Accept" "application/json"
    let builder := builder.AddHeader "Content-Type" "text/plain"
    let builder := builder.AddQuery "version" languageTranslator.service.Options.Version
    match builder.SetBodyContent "text/plain" none none options.Text with
    | .error err => .error (.err err)
    | .ok builder => .ok builder

/-- Identify language. -/
def Identify (core : Core) (languageTranslator : LanguageTranslatorV3)
    (identifyOptions : Option IdentifyOptions) : Outcome :=
  buildAndRequest core languageTranslator (.IdentifiedLanguages (some ⟨[]⟩))
    (IdentifyBuilder core languageTranslator identifyOptions)

/-- The request spec `ListIdentifiableLanguages` hands to `builder.Build()`: the function up to
that call. -/
def ListIdentifiableLanguagesBuilder (core : Core) (languageTranslator : LanguageTranslatorV3)
    (listIdentifiableLanguagesOptions : Option ListIdentifiableLanguagesOptions) :
    Except Abort RequestBuilder :=
  match core.ValidateStruct (.ListIdentifiableLanguages listIdentifiableLanguagesOptions)
    "listIdentifiableLanguagesOptions" with
  | some err => .error (.err err)
  | none =>
  let pathSegments := ["v3/identifiable_languages"]
  let pathParameters : List String := []
  let builder := NewRequestBuilder .GET
  let builder := dropResult builder (builder.ConstructHTTPURL core
    languageTranslator.service.Options.URL pathSegments pathParameters)
  match listIdentifiableLanguagesOptions with
  | none => .error nilDereference
  | some options =>
    let builder := addHeaders builder options.Headers
    let builder := builder.AddHeader "Accept" "application/json"
    let builder := builder.AddQuery "version" languageTranslator.service.Options.Version
    .ok builder

/-- List identifiable languages. -/
def ListIdentifiableLanguages (core : Core) (languageTranslator : LanguageTranslatorV3)
    (listIdentifiableLanguagesOptions : Option ListIdentifiableLanguagesOptions) : Outcome :=
  buildAndRequest core languageTranslator (.IdentifiableLanguages (some ⟨[]⟩))
    (ListIdentifiableLanguagesBuilder core languageTranslator listIdentifiableLanguagesOptions)

/-- The request spec `CreateModel` hands to `builder.Build()`: the function up to that call. -/
def CreateModelBuilder (core : Core) (languageTranslator : LanguageTranslatorV3)
    (createModelOptions : Option CreateModelOptions) : Except Abort RequestBuilder :=
  match core.ValidateNotNil (.CreateModel createModelOptions)
    "createModelOptions cannot be nil" with
  | some err => .error (.err err)
  | none =>
  match core.ValidateStruct (.CreateModel createModelOptions) "createModelOptions" with
  | some err => .error (.err err)
  | none =>
  match createModelOptions with
  | none => .error nilDereference
  | some options =>
    if options.ForcedGlossary = none ∧ options.ParallelCorpus = none then
      .error (.err (Errorf "At least one of forcedGlossary or parallelCorpus must be supplied"))
    else
      let pathSegments := ["v3/models"]
      let pathParameters : List String := []
      let builder := NewRequestBuilder .POST
      let builder := dropResult builder (builder.ConstructHTTPURL core
        languageTranslator.service.Options.URL pathSegments pathParameters)
      let builder := addHeaders builder options.Headers
      let builder := builder.AddHeader "Accept" "application/json"
      match options.BaseModelID with
      | none => .error nilDereference
      | some baseModelID =>
        let builder := builder.AddQuery "base_model_id" (SprintString baseModelID)
        let builder := match options.Name with
          | some name => builder.AddQuery "name" (SprintString name)
          | none => builder
        let builder := builder.AddQuery "version" languageTranslator.service.Options.Version
        let builder := match options.ForcedGlossary with
          | some forcedGlossary => dropResult builder (builder.AddFormData core "forced_glossary"
              (core.StringNilMapper options.ForcedGlossaryFilename)
              "application/octet-stream" forcedGlossary)
          | none => builder
        let builder := match options.ParallelCorpus with
          | some parallelCorpus => dropResult builder (builder.AddFormData core "parallel_corpus"
              (core.StringNilMapper options.ParallelCorpusFilename)
              "application/octet-stream" parallelCorpus)
          | none => builder
        .ok builder

/-- Create model. -/
def CreateModel (core : Core) (languageTranslator : LanguageTranslatorV3)
    (createModelOptions : Option CreateModelOptions) : Outcome :=
  buildAndRequest core languageTranslator
    (.TranslationModel (some ⟨none, none, none, none, none, none, none, none, none, none⟩))
    (CreateModelBuilder core languageTranslator createModelOptions)

/-- The request spec `DeleteModel` hands to `builder.Build()`: the function up to that call. -/
def DeleteModelBuilder (core : Core) (languageTranslator : LanguageTranslatorV3)
    (deleteModelOptions : Option DeleteModelOptions) : Except Abort RequestBuilder :=
  match core.ValidateNotNil (.DeleteModel deleteModelOptions)
    "deleteModelOptions cannot be nil" with
  | some err => .error (.err err)
  | none =>
  match core.ValidateStruct (.DeleteModel deleteModelOptions) "deleteModelOptions" with
  | some err => .error (.err err)
  | none =>
  match deleteModelOptions with
  | none => .error nilDereference
  | some options =>
    match options.ModelID with
    | none => .error nilDereference
    | some modelID =>
      let pathSegments := ["v3/models"]
      let pathParameters := [modelID]
      let builder := NewRequestBuilder .DELETE
      let builder := dropResult builder (builder.ConstructHTTPURL core
        languageTranslator.service.Options.URL pathSegments pathParameters)
      let builder := addHeaders builder options.Headers
      let builder := builder.AddHeader "Accept" "application/json"
      let builder := builder.AddQuery "version" languageTranslator.service.Options.Version
      .ok builder

/-- Delete model. -/
def DeleteModel (core : Core) (languageTranslator : LanguageTranslatorV3)
    (deleteModelOptions : Option DeleteModelOptions) : Outcome :=
  buildAndRequest core languageTranslator (.DeleteModelResult (some ⟨none⟩))
    (DeleteModelBuilder core languageTranslator deleteModelOptions)

/-- The request spec `GetModel` hands to `builder.Build()`: the function up to that call. -/
def GetModelBuilder (core : Core) (languageTranslator : LanguageTranslatorV3)
    (getModelOptions : Option GetModelOptions) : Except Abort RequestBuilder :=
  match core.ValidateNotNil (.GetModel getModelOptions) "getModelOptions cannot be nil" with
  | some err => .error (.err err)
  | none =>
  match core.ValidateStruct (.GetModel getModelOptions) "getModelOptions" with
  | some err => .error (.err err)
  | none =>
  match getModelOptions with
  | none => .error nilDereference
  | some options =>
    match options.ModelID with
    | none => .error nilDereference
    | some modelID =>
      let pathSegments := ["v3/models"]
      let pathParameters := [modelID]
      let builder := NewRequestBuilder .GET
      let builder := dropResult builder (builder.ConstructHTTPURL core
        languageTranslator.service.Options.URL pathSegments pathParameters)
      let builder := addHeaders builder options.Headers
      let builder := builder.AddHeader "Accept" "application/json"
      let builder := builder.AddQuery "version" languageTranslator.service.Options.Version
      .ok builder

/-- Get model details. -/
def GetModel (core : Core) (languageTranslator : LanguageTranslatorV3)
    (getModelOptions : Option GetModelOptions) : Outcome :=
  buildAndRequest core languageTranslator
    (.TranslationModel (some ⟨none, none, none, none, none, none, none, none, none, none⟩))
    (GetModelBuilder core languageTranslator getModelOptions)

/-- The request spec `ListModels` hands to `builder.Build()`: the function up to that call. -/
def ListModelsBuilder (core : Core) (languageTranslator : LanguageTranslatorV3)
    (listModelsOptions : Option ListModelsOptions) : Except Abort RequestBuilder :=
  match core.ValidateStruct (.ListModels listModelsOptions) "listModelsOptions" with
  | some err => .error (.err err)
  | none =>
  let pathSegments := ["v3/models"]
  let pathParameters : List String := []
  let builder := NewRequestBuilder .GET
  let builder := dropResult builder (builder.ConstructHTTPURL core
    languageTranslator.service.Options.URL pathSegments pathParameters)
  match listModelsOptions with
  | none => .error nilDereference
  | some options =>
    let builder := addHeaders builder options.Headers
    let builder := builder.AddHeader "Accept" "application/json"
    let builder := match options.Source with
      | some source => builder.AddQuery "source" (SprintString source)
      | none => builder
    let builder := match options.Target with
      | some target => builder.AddQuery "target" (SprintString target)
      | none => builder
    let builder := match options.DefaultModels with
      | some defaultModels => builder.AddQuery "default" (SprintBool defaultModels)
      | none => builder
    let builder := builder.AddQuery "version" languageTranslator.service.Options.Version
    .ok builder

/-- List models. -/
def ListModels (core : Core) (languageTranslator : LanguageTranslatorV3)
    (listModelsOptions : Option ListModelsOptions) : Outcome :=
  buildAndRequest core languageTranslator (.TranslationModels (some ⟨[]⟩))
    (ListModelsBuilder core languageTranslator listModelsOptions)

/-- The request spec an operation hands to `builder.Build()`, the operation being given by the
options pointer it is called with. -/
def builderOf (core : Core) (languageTranslator : LanguageTranslatorV3) :
    AnyOptions → Except Abort RequestBuilder
  | .Translate p => TranslateBuilder core languageTranslator p
  | .Identify p => IdentifyBuilder core languageTranslator p
  | .ListIdentifiableLanguages p => ListIdentifiableLanguagesBuilder core languageTranslator p
  | .CreateModel p => CreateModelBuilder core languageTranslator p
  | .DeleteModel p => DeleteModelBuilder core languageTranslator p
  | .GetModel p => GetModelBuilder core languageTranslator p
  | .ListModels p => ListModelsBuilder core languageTranslator p

/-- The call of an operation, the operation being given by the options pointer it is called
with. -/
def call (core : Core) (languageTranslator : LanguageTranslatorV3) : AnyOptions → Outcome
  | .Translate p => Translate core languageTranslator p
  | .Identify p => Identify core languageTranslator p
  | .ListIdentifiableLanguages p => ListIdentifiableLanguages core languageTranslator p
  | .CreateModel p => CreateModel core languageTranslator p
  | .DeleteModel p => DeleteModel core languageTranslator p
  | .GetModel p => GetModel core languageTranslator p
  | .ListModels p => ListModels core languageTranslator p

/-! ## Casting the result of an operation -/

/-- Cast result of Translate operation.  A nil `response` panics at `response.Result`. -/
def GetTranslateResult (response : Option DetailedResponse) :
    Except Abort (Option TranslationResult) :=
  match response with
  | none => .error nilDereference
  | some response =>
    match response.Result with
    | some (.TranslationResult result) => .ok result
    | _ => .ok none

/-- Cast result of Identify operation. -/
def GetIdentifyResult (response : Option DetailedResponse) :
    Except Abort (Option IdentifiedLanguages) :=
  match response with
  | none => .error nilDereference
  | some response =>
    match response.Result with
    | some (.IdentifiedLanguages result) => .ok result
    | _ => .ok none

/-- Cast result of ListIdentifiableLanguages operation. -/
def GetListIdentifiableLanguagesResult (response : Option DetailedResponse) :
    Except Abort (Option IdentifiableLanguages) :=
  match response with
  | none => .error nilDereference
  | some response =>
    match response.Result with
    | some (.IdentifiableLanguages result) => .ok result
    | _ => .ok none

/-- Cast result of CreateModel operation. -/
def GetCreateModelResult (response : Option DetailedResponse) :
    Except Abort (Option TranslationModel) :=
  match response with
  | none => .error nilDereference
  | some response =>
    match response.Result with
    | some (.TranslationModel result) => .ok result
    | _ => .ok none

/-- Cast result of DeleteModel operation. -/
def GetDeleteModelResult (response : Option DetailedResponse) :
    Except Abort (Option DeleteModelResult) :=
  match response with
  | none => .error nilDereference
  | some response =>
    match response.Result with
    | some (.DeleteModelResult result) => .ok result
    | _ => .ok none

/-- Cast result of GetModel operation. -/
def GetGetModelResult (response : Option DetailedResponse) :
    Except Abort (Option TranslationModel) :=
  match response with
  | none => .error nilDereference
  | some response =>
    match response.Result with
    | some (.TranslationModel result) => .ok result
    | _ => .ok none

/-- Cast result of ListModels operation. -/
def GetListModelsResult (response : Option DetailedResponse) :
    Except Abort (Option TranslationModels) :=
  match response with
  | none => .error nilDereference
  | some response =>
    match response.Result with
    | some (.TranslationModels result) => .ok result
    | _ => .ok none

/-! ## A concrete instance of `Core` -/

/-- An instance of `Core` at which the operations can be evaluated: `ValidateNotNil` rejects the
nil pointer with the message it is given, `ValidateStruct` rejects a struct one of whose fields
tagged `validate:"required"` is nil, `StringNilMapper` maps nil to the empty string, every URL
parses, and `service.Request` answers 200 with the decode target as the result. -/
def sampleCore : Core where
  ValidateNotNil := fun object message =>
    match object with
    | .Translate none | .Identify none | .ListIdentifiableLanguages none | .CreateModel none
    | .DeleteModel none | .GetModel none | .ListModels none => some ⟨.ValidationError, message⟩
    | _ => none
  ValidateStruct := fun param paramName =>
    match param with
    | .Translate (some ⟨none, _, _, _, _⟩) => some ⟨.ValidationError, paramName⟩
    | .Identify (some ⟨none, _⟩) => some ⟨.ValidationError, paramName⟩
    | .CreateModel (some ⟨none, _, _, _, _, _, _⟩) => some ⟨.ValidationError, paramName⟩
    | .DeleteModel (some ⟨none, _⟩) => some ⟨.ValidationError, paramName⟩
    | .GetModel (some ⟨none, _⟩) => some ⟨.ValidationError, paramName⟩
    | _ => none
  StringNilMapper := fun s => s.getD ""
  URLParses := fun _ _ _ => true
  boundary := "boundary"
  Request := fun _ _ target => (some ⟨200, [], some target⟩, none)

/-- A service instance with Basic credentials. -/
def sampleService : LanguageTranslatorV3 :=
  { service :=
      { Options :=
          { URL := "https://gateway.watsonplatform.net/language-translator/api"
            Version := "2018-05-01"
            Username := "user"
            Password := "pass"
            IAMApiKey := ""
            IAMAccessToken := ""
            IAMURL := "" }
        Credentials := .BasicAuth "user" "pass"
        serviceName := "language_translator" } }

/-! ## Definitions used to state the properties -/

/-- The JSON object `Translate` assembles in its local variable `body`. -/
def translateBody (options : TranslateOptions) : List (String × BodyValue) :=
  let body : List (String × BodyValue) := []
  let body := match options.Text with
    | some text => mapSet "text" (.stringSlice text) body
    | none => body
  let body := match options.ModelID with
    | some modelID => mapSet "model_id" (.stringPointer modelID) body
    | none => body
  let body := match options.Source with
    | some source => mapSet "source" (.stringPointer source) body
    | none => body
  match options.Target with
  | some target => mapSet "target" (.stringPointer target) body
  | none => body

/-- The form-data parts `CreateModel` adds, in the order of its two `AddFormData` statements. -/
def createModelParts (core : Core) (options : CreateModelOptions) : List FormPart :=
  (match options.ForcedGlossary with
    | some forcedGlossary =>
      [⟨"forced_glossary", core.StringNilMapper options.ForcedGlossaryFilename,
        "application/octet-stream", forcedGlossary⟩]
    | none => []) ++
  (match options.ParallelCorpus with
    | some parallelCorpus =>
      [⟨"parallel_corpus", core.StringNilMapper options.ParallelCorpusFilename,
        "application/octet-stream", parallelCorpus⟩]
    | none => [])

/-- The `Headers` map of the options an operation is called with; a nil pointer has none. -/
def callerHeaders : AnyOptions → List (String × String)
  | .Translate p => (p.map (·.Headers)).getD []
  | .Identify p => (p.map (·.Headers)).getD []
  | .ListIdentifiableLanguages p => (p.map (·.Headers)).getD []
  | .CreateModel p => (p.map (·.Headers)).getD []
  | .DeleteModel p => (p.map (·.Headers)).getD []
  | .GetModel p => (p.map (·.Headers)).getD []
  | .ListModels p => (p.map (·.Headers)).getD []

/-- The headers a builder holds after the loop over the caller's `Headers`. -/
def rangedHeaders (headers : List (String × String)) : List (String × String) :=
  headers.foldl (fun acc e => mapSet e.1 e.2 acc) []

/-- The `Get...Result` function of an operation, its result put back into an interface value so
that the seven functions have one type. -/
def getResultOf (operation : AnyOptions) (response : Option DetailedResponse) :
    Except Abort ResultValue :=
  match operation with
  | .Translate _ => (GetTranslateResult response).map .TranslationResult
  | .Identify _ => (GetIdentifyResult response).map .IdentifiedLanguages
  | .ListIdentifiableLanguages _ =>
    (GetListIdentifiableLanguagesResult response).map .IdentifiableLanguages
  | .CreateModel _ => (GetCreateModelResult response).map .TranslationModel
  | .DeleteModel _ => (GetDeleteModelResult response).map .DeleteModelResult
  | .GetModel _ => (GetGetModelResult response).map .TranslationModel
  | .ListModels _ => (GetListModelsResult response).map .TranslationModels

/-- A call of `DeleteModel` for the model `en-es-custom`, with one header of the caller. -/
def sampleDeleteModel : AnyOptions :=
  .DeleteModel (some { ModelID := some "en-es-custom", Headers := [("X-Watson-Test", "1")] })

/-- The request `DeleteModel` sends for `sampleDeleteModel` at `sampleCore`. -/
def sampleDeleteModelRequest : HTTPRequest :=
  { Method := .DELETE
    URL := ⟨"https://gateway.watsonplatform.net/language-translator/api", ["v3/models"],
      ["en-es-custom"]⟩
    Header := [("X-Watson-Test", "1"), ("Accept", "application/json")]
    Query := [("version", "2018-05-01")]
    Body := .None }

/-- A call of `ListModels` with the three filters set. -/
def sampleListModels : AnyOptions :=
  .ListModels (some { Source := some "en", Target := some "es", DefaultModels := some true,
                      Headers := [] })

/-- The request spec `ListModels` hands to `Build` for `sampleListModels` at `sampleCore`. -/
def sampleListModelsBuilder : RequestBuilder :=
  { Method := .GET
    URL := some ⟨"https://gateway.watsonplatform.net/language-translator/api", ["v3/models"], []⟩
    Header := [("Accept", "application/json")]
    Query := [("source", "en"), ("target", "es"), ("default", "true"), ("version", "2018-05-01")]
    Body := .None }

/-- A call of `Translate` whose caller supplies the headers `Accept`, `Content-Type` and
`X-Watson-Learning-Opt-Out`. -/
def sampleTranslateOverride : AnyOptions :=
  .Translate (some { Text := some ["Hello"], ModelID := some "en-es", Source := none,
                     Target := none,
                     Headers := [("Accept", "text/xml"), ("Content-Type", "text/csv"),
                       ("X-Watson-Learning-Opt-Out", "true")] })

/-- The request `Translate` sends for `sampleTranslateOverride` at `sampleCore`. -/
def sampleTranslateOverrideRequest : HTTPRequest :=
  { Method := .POST
    URL := ⟨"https://gateway.watsonplatform.net/language-translator/api", ["v3/translate"], []⟩
    Header := [("Accept", "application/json"), ("Content-Type", "application/json"),
      ("X-Watson-Learning-Opt-Out", "true")]
    Query := [("version", "2018-05-01")]
    Body := .JSON [("text", .stringSlice ["Hello"]), ("model_id", .stringPointer "en-es")] }

/-- Service options with a username and no password, and no URL. -/
def sampleUsernameOnly : LanguageTranslatorV3Options :=
  { Version := "2018-05-01", URL := "", Username := "user", Password := "", IAMApiKey := "",
    IAMAccessToken := "", IAMURL := "" }

/-- A response whose `Result` is the decode target of `DeleteModel`, filled in. -/
def sampleDeleteModelResponse : DetailedResponse :=
  { StatusCode := 200, Headers := [],
    Result := some (.DeleteModelResult (some ⟨some "OK"⟩)) }

/-- The form-data parts of a body that have the given field name. -/
def partsNamed (fieldName : String) : BodyVariant → List FormPart
  | .FormData parts => parts.filter (fun part => part.fieldName = fieldName)
  | _ => []

/-- Options of `CreateModel` with a forced glossary and a parallel corpus, the second without a
filename. -/
def sampleCreateModelOptions : CreateModelOptions :=
  { BaseModelID := some "en-es", Name := some "custom", ForcedGlossary := some ⟨"glossary.tmx"⟩,
    ForcedGlossaryFilename := some "glossary.tmx", ParallelCorpus := some ⟨"corpus.tmx"⟩,
    ParallelCorpusFilename := none, Headers := [] }

/-- The request spec `CreateModel` hands to `Build` for `sampleCreateModelOptions` at
`sampleCore`. -/
def sampleCreateModelBuilder : RequestBuilder :=
  { Method := .POST
    URL := some ⟨"https://gateway.watsonplatform.net/language-translator/api", ["v3/models"], []⟩
    Header := [("Accept", "application/json"),
      ("Content-Type", "multipart/form-data; boundary=boundary")]
    Query := [("base_model_id", "en-es"), ("name", "custom"), ("version", "2018-05-01")]
    Body := .FormData
      [⟨"forced_glossary", "glossary.tmx", "application/octet-stream", ⟨"glossary.tmx"⟩⟩,
       ⟨"parallel_corpus", "", "application/octet-stream", ⟨"corpus.tmx"⟩⟩] }

/-- Options of `Translate` with a text and neither a model ID nor a source nor a target. -/
def sampleTranslateTextOnly : TranslateOptions :=
  { Text := some ["Hello"], ModelID := none, Source := none, Target := none, Headers := [] }

/-- The request `Translate` sends for `sampleTranslateTextOnly` at `sampleCore`. -/
def sampleTranslateTextOnlyRequest : HTTPRequest :=
  { Method := .POST
    URL := ⟨"https://gateway.watsonplatform.net/language-translator/api", ["v3/translate"], []⟩
    Header := [("Accept", "application/json"), ("Content-Type", "application/json")]
    Query := [("version", "2018-05-01")]
    Body := .JSON [("text", .stringSlice ["Hello"])] }

/-! ## The Authorization header -/

/-- The bytes of a character in UTF-8, the encoding of a Go `string`. -/
def utf8Bytes (c : Char) : List Nat :=
  let n := c.toNat
  if n < 128 then [n]
  else if n < 2048 then [192 + n / 64, 128 + n % 64]
  else if n < 65536 then [224 + n / 4096, 128 + n / 64 % 64, 128 + n % 64]
  else [240 + n / 262144, 128 + n / 4096 % 64, 128 + n / 64 % 64, 128 + n % 64]

/-- The character of a six-bit value in the standard base64 alphabet. -/
def base64Char (sextet : Nat) : Char :=
  "ABCDEFGHIJKLMNOPQRSTUVWXYZabcdefghijklmnopqrstuvwxyz0123456789+/".toList.getD sextet '='

/-- The standard base64 encoding of a sequence of bytes, padded with `=` (RFC 4648, Go's
`base64.StdEncoding`): three bytes give four characters. -/
def base64Bytes : List Nat → List Char
  | [] => []
  | [a] => [base64Char (a / 4), base64Char (a % 4 * 16), '=', '=']
  | [a, b] =>
    [base64Char (a / 4), base64Char (a % 4 * 16 + b / 16), base64Char (b % 16 * 4), '=']
  | a :: b :: c :: rest =>
    base64Char (a / 4) :: base64Char (a % 4 * 16 + b / 16) ::
      base64Char (b % 16 * 4 + c / 64) :: base64Char (c % 64) :: base64Bytes rest

/-- The standard base64 encoding of the UTF-8 bytes of a string. -/
def base64 (s : String) : String :=
  String.mk (base64Bytes (s.toList.flatMap utf8Bytes))

/-- Modelled from the spec: the token manager of `core` is not among the sources.
"`getAuthHeader() -> HeaderValue`: for BasicAuth, returns a base64-encoded `Basic <user:pass>`
value synchronously, no network call", which is "`Basic ` + base64(`user:pass`)".  "For
PresetAccessToken, returns `Bearer <token>` unconditionally.  For IAMAuth: if no cached token
exists, or the cached token's expiry is within a short safety margin (e.g., 60 seconds) of
now, performs a token-exchange network call against the IAM token endpoint using the API key; on
success caches {accessToken, expiry} and returns `Bearer <accessToken>`; on failure surfaces
`AuthenticationError`."  The token exchange is the function `exchange` of the API key and the
token URL, the clock is `now`; the result is the header value and the credentials with the
token cache as the call left it. -/
def getAuthHeader (exchange : String → String → Option (String × Nat)) (now : Nat)
    (credentials : Credentials) : Except Error (String × Credentials) :=
  match credentials with
  | .BasicAuth username password =>
    .ok ("Basic " ++ base64 (username ++ ":" ++ password), credentials)
  | .PresetAccessToken token => .ok ("Bearer " ++ token, credentials)
  | .IAMAuth apiKey tokenURL cachedAccessToken cachedExpiry =>
    let refresh : Except Error (String × Credentials) :=
      match exchange apiKey tokenURL with
      | none => .error ⟨.AuthenticationError, "the token exchange failed"⟩
      | some (accessToken, expiry) =>
        .ok ("Bearer " ++ accessToken, .IAMAuth apiKey tokenURL (some accessToken) (some expiry))
    match cachedAccessToken, cachedExpiry with
    | some accessToken, some expiry =>
      if now + 60 < expiry then .ok ("Bearer " ++ accessToken, credentials) else refresh
    | _, _ => refresh

/-- Service options with Basic credentials only. -/
def sampleBasicOptions : LanguageTranslatorV3Options :=
  { Version := "2018-05-01", URL := "", Username := "user", Password := "pass", IAMApiKey := "",
    IAMAccessToken := "", IAMURL := "" }

/-! ## Definitions used to state the properties of a call -/

/-- The decode target an operation passes to `service.Request`: `new(T)` for its result type
`T`. -/
def decodeTargetOf : AnyOptions → ResultValue
  | .Translate _ => .TranslationResult (some ⟨none, none, []⟩)
  | .Identify _ => .IdentifiedLanguages (some ⟨[]⟩)
  | .ListIdentifiableLanguages _ => .IdentifiableLanguages (some ⟨[]⟩)
  | .CreateModel _ =>
    .TranslationModel (some ⟨none, none, none, none, none, none, none, none, none, none⟩)
  | .DeleteModel _ => .DeleteModelResult (some ⟨none⟩)
  | .GetModel _ =>
    .TranslationModel (some ⟨none, none, none, none, none, none, none, none, none, none⟩)
  | .ListModels _ => .TranslationModels (some ⟨[]⟩)

/-- The error of the validation an operation begins with: that of `ValidateNotNil`, which all
operations but `ListIdentifiableLanguages` and `ListModels` call, and after it that of
`ValidateStruct`; `none` when the options pass. -/
def validationError (core : Core) : AnyOptions → Option Error
  | .Translate p =>
    match core.ValidateNotNil (.Translate p) "translateOptions cannot be nil" with
    | some err => some err
    | none => core.ValidateStruct (.Translate p) "translateOptions"
  | .Identify p =>
    match core.ValidateNotNil (.Identify p) "identifyOptions cannot be nil" with
    | some err => some err
    | none => core.ValidateStruct (.Identify p) "identifyOptions"
  | .ListIdentifiableLanguages p =>
    core.ValidateStruct (.ListIdentifiableLanguages p) "listIdentifiableLanguagesOptions"
  | .CreateModel p =>
    match core.ValidateNotNil (.CreateModel p) "createModelOptions cannot be nil" with
    | some err => some err
    | none => core.ValidateStruct (.CreateModel p) "createModelOptions"
  | .DeleteModel p =>
    match core.ValidateNotNil (.DeleteModel p) "deleteModelOptions cannot be nil" with
    | some err => some err
    | none => core.ValidateStruct (.DeleteModel p) "deleteModelOptions"
  | .GetModel p =>
    match core.ValidateNotNil (.GetModel p) "getModelOptions cannot be nil" with
    | some err => some err
    | none => core.ValidateStruct (.GetModel p) "getModelOptions"
  | .ListModels p => core.ValidateStruct (.ListModels p) "listModelsOptions"

/-- The values a query holds under a key, in order. -/
def queryValues (key : String) (query : List (String × String)) : List String :=
  (query.filter (fun entry => entry.1 = key)).map Prod.snd

/-- A call of `DeleteModel` with a nil options pointer. -/
def sampleDeleteModelNil : AnyOptions :=
  .DeleteModel none

/-- A call of `Translate` with a text, a source and a target, and no model ID. -/
def sampleTranslateLanguages : AnyOptions :=
  .Translate (some { Text := some ["Hello", "World"], ModelID := none, Source := some "en",
                     Target := some "es", Headers := [] })

/-- The request spec `Translate` hands to `Build` for `sampleTranslateLanguages` at
`sampleCore`. -/
def sampleTranslateLanguagesBuilder : RequestBuilder :=
  { Method := .POST
    URL := some ⟨"https://gateway.watsonplatform.net/language-translator/api",
      ["v3/translate"], []⟩
    Header := [("Accept", "application/json"), ("Content-Type", "application/json")]
    Query := [("version", "2018-05-01")]
    Body := .JSON [("text", .stringSlice ["Hello", "World"]), ("source", .stringPointer "en"),
      ("target", .stringPointer "es")] }

/-- Options of `CreateModel` with a base model and no file. -/
def sampleCreateModelNoFile : CreateModelOptions :=
  { BaseModelID := some "en-es", Name := none, ForcedGlossary := none,
    ForcedGlossaryFilename := none, ParallelCorpus := none, ParallelCorpusFilename := none,
    Headers := [] }

/-- Whether an operation accepts the options it is called with: the validation it begins with
returns no error, the options pointer and the required field the operation dereferences
(`BaseModelID` of `CreateModel`, `ModelID` of `DeleteModel` and `GetModel`) are not nil, and
`CreateModel` is given a file. -/
def accepts (core : Core) (operation : AnyOptions) : Bool :=
  (validationError core operation).isNone &&
  match operation with
  | .Translate p => p.isSome
  | .Identify p => p.isSome
  | .ListIdentifiableLanguages p => p.isSome
  | .CreateModel p =>
    match p with
    | some o => o.BaseModelID.isSome && (o.ForcedGlossary.isSome || o.ParallelCorpus.isSome)
    | none => false
  | .DeleteModel p =>
    match p with
    | some o => o.ModelID.isSome
    | none => false
  | .GetModel p =>
    match p with
    | some o => o.ModelID.isSome
    | none => false
  | .ListModels p => p.isSome

/-- A call of `Identify` with a text. -/
def sampleIdentify : AnyOptions :=
  .Identify (some { Text := some "Hola", Headers := [] })

/-- A call of `ListIdentifiableLanguages`. -/
def sampleListIdentifiableLanguages : AnyOptions :=
  .ListIdentifiableLanguages (some { Headers := [] })

/-- A call of `CreateModel` with a name, a forced glossary and a parallel corpus. -/
def sampleCreateModel : AnyOptions :=
  .CreateModel (some sampleCreateModelOptions)

/-- A call of `GetModel` for the model `en-es-custom`. -/
def sampleGetModel : AnyOptions :=
  .GetModel (some { ModelID := some "en-es-custom", Headers := [] })

/-! ## Lemmas on the request builder -/

theorem addHeaders_Method (hs : List (String × String)) (b : RequestBuilder) :
    (addHeaders b hs).Method = b.Method := by
  induction hs generalizing b with
  | nil => rfl
  | cons e rest ih => simpa [addHeaders, RequestBuilder.AddHeader] using ih _

theorem addHeaders_URL (hs : List (String × String)) (b : RequestBuilder) :
    (addHeaders b hs).URL = b.URL := by
  induction hs generalizing b with
  | nil => rfl
  | cons e rest ih => simpa [addHeaders, RequestBuilder.AddHeader] using ih _

theorem addHeaders_Query (hs : List (String × String)) (b : RequestBuilder) :
    (addHeaders b hs).Query = b.Query := by
  induction hs generalizing b with
  | nil => rfl
  | cons e rest ih => simpa [addHeaders, RequestBuilder.AddHeader] using ih _

theorem addHeaders_Body (hs : List (String × String)) (b : RequestBuilder) :
    (addHeaders b hs).Body = b.Body := by
  induction hs generalizing b with
  | nil => rfl
  | cons e rest ih => simpa [addHeaders, RequestBuilder.AddHeader] using ih _

theorem addHeaders_Header (hs : List (String × String)) (b : RequestBuilder) :
    (addHeaders b hs).Header = hs.foldl (fun acc e => mapSet e.1 e.2 acc) b.Header := by
  induction hs generalizing b with
  | nil => rfl
  | cons e rest ih => simpa [addHeaders, RequestBuilder.AddHeader] using ih _

/-- The builder after the statement `builder.ConstructHTTPURL(...)`. -/
theorem constructed_eq (core : Core) (b : RequestBuilder) (url : String)
    (segs params : List String) :
    dropResult b (b.ConstructHTTPURL core url segs params) =
      { b with URL := if params.length ≤ segs.length ∧ core.URLParses url segs params = true
          then some ⟨url, segs, params⟩ else b.URL } := by
  unfold RequestBuilder.ConstructHTTPURL dropResult
  by_cases h1 : segs.length < params.length
  · have : ¬ params.length ≤ segs.length := by omega
    simp [h1, this]
  · have h2 : params.length ≤ segs.length := by omega
    by_cases h3 : core.URLParses url segs params = true <;> simp [h1, h2, h3]

theorem mapGet_mapSet_self {β : Type} (key : String) (value : β) (m : List (String × β)) :
    mapGet key (mapSet key value m) = some value := by
  induction m with
  | nil => simp [mapSet, mapGet]
  | cons e rest ih =>
    obtain ⟨k, v⟩ := e
    by_cases h : k = key <;> simp [mapSet, mapGet, h, ih]

theorem mapGet_mapSet_ne {β : Type} (key other : String) (value : β) (m : List (String × β))
    (h : other ≠ key) : mapGet other (mapSet key value m) = mapGet other m := by
  induction m with
  | nil => simp [mapSet, mapGet, h.symm]
  | cons e rest ih =>
    obtain ⟨k, v⟩ := e
    by_cases hk : k = key
    · subst hk
      simp [mapSet, mapGet, h.symm]
    · by_cases ho : k = other
      · subst ho
        simp [mapSet, mapGet, hk]
      · simp [mapSet, mapGet, hk, ho, ih]

theorem mapSet_mapSet_self {β : Type} (key : String) (v w : β) (m : List (String × β)) :
    mapSet key w (mapSet key v m) = mapSet key w m := by
  induction m with
  | nil => simp [mapSet]
  | cons e rest ih =>
    obtain ⟨k, u⟩ := e
    by_cases h : k = key <;> simp [mapSet, h, ih]

/-- What `Translate` hands to `Build`, field by field. -/
theorem TranslateBuilder_ok (core : Core) (lt : LanguageTranslatorV3)
    (p : Option TranslateOptions) (b : RequestBuilder)
    (h : TranslateBuilder core lt p = .ok b) :
    ∃ o, p = some o ∧
      b = { Method := .POST
            URL := if core.URLParses lt.service.Options.URL ["v3/translate"] [] = true
              then some ⟨lt.service.Options.URL, ["v3/translate"], []⟩ else none
            Header := mapSet "Content-Type" "application/json"
              (mapSet "Accept" "application/json" (rangedHeaders o.Headers))
            Query := [("version", lt.service.Options.Version)]
            Body := .JSON (translateBody o) } := by
  unfold TranslateBuilder at h
  split at h
  · cases h
  split at h
  · cases h
  split at h
  · cases h
  rename_i o _ _
  refine ⟨o, rfl, ?_⟩
  simp only [constructed_eq] at h
  rcases o with ⟨_ | text, _ | modelID, _ | source, _ | target, headers⟩ <;>
    simp [RequestBuilder.SetBodyContentJSON, RequestBuilder.AddHeader, RequestBuilder.AddQuery,
      addHeaders_Method, addHeaders_URL, addHeaders_Query, addHeaders_Body, addHeaders_Header,
      NewRequestBuilder, mapSet, mapGet_mapSet_self, translateBody, rangedHeaders] at h ⊢ <;>
    exact h.symm

/-- What `Identify` hands to `Build`, field by field. -/
theorem IdentifyBuilder_ok (core : Core) (lt : LanguageTranslatorV3)
    (p : Option IdentifyOptions) (b : RequestBuilder)
    (h : IdentifyBuilder core lt p = .ok b) :
    ∃ o, p = some o ∧
      b = { Method := .POST
            URL := if core.URLParses lt.service.Options.URL ["v3/identify"] [] = true
              then some ⟨lt.service.Options.URL, ["v3/identify"], []⟩ else none
            Header := mapSet "Content-Type" "text/plain"
              (mapSet "Accept" "application/json" (rangedHeaders o.Headers))
            Query := [("version", lt.service.Options.Version)]
            Body := .RawBody "text/plain" o.Text } := by
  unfold IdentifyBuilder at h
  split at h
  · cases h
  split at h
  · cases h
  split at h
  · cases h
  rename_i o _ _
  refine ⟨o, rfl, ?_⟩
  simp only [constructed_eq] at h
  simp [RequestBuilder.SetBodyContent, RequestBuilder.AddHeader, RequestBuilder.AddQuery,
    addHeaders_Method, addHeaders_URL, addHeaders_Query, addHeaders_Body, addHeaders_Header,
    NewRequestBuilder, rangedHeaders] at h ⊢
  exact h.symm

/-- What `ListIdentifiableLanguages` hands to `Build`, field by field. -/
theorem ListIdentifiableLanguagesBuilder_ok (core : Core) (lt : LanguageTranslatorV3)
    (p : Option ListIdentifiableLanguagesOptions) (b : RequestBuilder)
    (h : ListIdentifiableLanguagesBuilder core lt p = .ok b) :
    ∃ o, p = some o ∧
      b = { Method := .GET
            URL := if core.URLParses lt.service.Options.URL ["v3/identifiable_languages"] []
                = true
              then some ⟨lt.service.Options.URL, ["v3/identifiable_languages"], []⟩ else none
            Header := mapSet "Accept" "application/json" (rangedHeaders o.Headers)
            Query := [("version", lt.service.Options.Version)]
            Body := .None } := by
  unfold ListIdentifiableLanguagesBuilder at h
  split at h
  · cases h
  split at h
  · cases h
  rename_i o _
  refine ⟨o, rfl, ?_⟩
  simp only [constructed_eq] at h
  simp [RequestBuilder.AddHeader, RequestBuilder.AddQuery,
    addHeaders_Method, addHeaders_URL, addHeaders_Query, addHeaders_Body, addHeaders_Header,
    NewRequestBuilder, rangedHeaders] at h ⊢
  exact h.symm

/-- What `CreateModel` hands to `Build`, field by field. -/
theorem CreateModelBuilder_ok (core : Core) (lt : LanguageTranslatorV3)
    (p : Option CreateModelOptions) (b : RequestBuilder)
    (h : CreateModelBuilder core lt p = .ok b) :
    ∃ o baseModelID, p = some o ∧ o.BaseModelID = some baseModelID ∧
      ¬ (o.ForcedGlossary = none ∧ o.ParallelCorpus = none) ∧
      b = { Method := .POST
            URL := if core.URLParses lt.service.Options.URL ["v3/models"] [] = true
              then some ⟨lt.service.Options.URL, ["v3/models"], []⟩ else none
            Header := mapSet "Content-Type" ("multipart/form-data; boundary=" ++ core.boundary)
              (mapSet "Accept" "application/json" (rangedHeaders o.Headers))
            Query := [("base_model_id", baseModelID)] ++
              (match o.Name with
                | some name => [("name", name)]
                | none => []) ++
              [("version", lt.service.Options.Version)]
            Body := .FormData (createModelParts core o) } := by
  unfold CreateModelBuilder at h
  split at h
  · cases h
  split at h
  · cases h
  split at h
  · cases h
  rename_i o _ _
  split at h
  · cases h
  rename_i hfiles
  split at h
  · cases h
  rename_i baseModelID hbase
  refine ⟨o, baseModelID, rfl, hbase, hfiles, ?_⟩
  simp only [constructed_eq] at h
  rcases o with ⟨base, _ | name, _ | forcedGlossary, fgName, _ | parallelCorpus, pcName, headers⟩ <;>
    simp [RequestBuilder.AddFormData, RequestBuilder.AddHeader, RequestBuilder.AddQuery,
      dropResult, addHeaders_Method, addHeaders_URL, addHeaders_Query, addHeaders_Body,
      addHeaders_Header, NewRequestBuilder, rangedHeaders, createModelParts, SprintString,
      mapSet_mapSet_self] at h hfiles ⊢ <;>
    exact h.symm

/-- What `DeleteModel` hands to `Build`, field by field. -/
theorem DeleteModelBuilder_ok (core : Core) (lt : LanguageTranslatorV3)
    (p : Option DeleteModelOptions) (b : RequestBuilder)
    (h : DeleteModelBuilder core lt p = .ok b) :
    ∃ o modelID, p = some o ∧ o.ModelID = some modelID ∧
      b = { Method := .DELETE
            URL := if core.URLParses lt.service.Options.URL ["v3/models"] [modelID] = true
              then some ⟨lt.service.Options.URL, ["v3/models"], [modelID]⟩ else none
            Header := mapSet "Accept" "application/json" (rangedHeaders o.Headers)
            Query := [("version", lt.service.Options.Version)]
            Body := .None } := by
  unfold DeleteModelBuilder at h
  split at h
  · cases h
  split at h
  · cases h
  split at h
  · cases h
  rename_i o _ _
  split at h
  · cases h
  rename_i modelID hid
  refine ⟨o, modelID, rfl, hid, ?_⟩
  simp only [constructed_eq] at h
  simp [RequestBuilder.AddHeader, RequestBuilder.AddQuery,
    addHeaders_Method, addHeaders_URL, addHeaders_Query, addHeaders_Body, addHeaders_Header,
    NewRequestBuilder, rangedHeaders] at h ⊢
  exact h.symm

/-- What `GetModel` hands to `Build`, field by field. -/
theorem GetModelBuilder_ok (core : Core) (lt : LanguageTranslatorV3)
    (p : Option GetModelOptions) (b : RequestBuilder)
    (h : GetModelBuilder core lt p = .ok b) :
    ∃ o modelID, p = some o ∧ o.ModelID = some modelID ∧
      b = { Method := .GET
            URL := if core.URLParses lt.service.Options.URL ["v3/models"] [modelID] = true
              then some ⟨lt.service.Options.URL, ["v3/models"], [modelID]⟩ else none
            Header := mapSet "Accept" "application/json" (rangedHeaders o.Headers)
            Query := [("version", lt.service.Options.Version)]
            Body := .None } := by
  unfold GetModelBuilder at h
  split at h
  · cases h
  split at h
  · cases h
  split at h
  · cases h
  rename_i o _ _
  split at h
  · cases h
  rename_i modelID hid
  refine ⟨o, modelID, rfl, hid, ?_⟩
  simp only [constructed_eq] at h
  simp [RequestBuilder.AddHeader, RequestBuilder.AddQuery,
    addHeaders_Method, addHeaders_URL, addHeaders_Query, addHeaders_Body, addHeaders_Header,
    NewRequestBuilder, rangedHeaders] at h ⊢
  exact h.symm

/-- What `ListModels` hands to `Build`, field by field. -/
theorem ListModelsBuilder_ok (core : Core) (lt : LanguageTranslatorV3)
    (p : Option ListModelsOptions) (b : RequestBuilder)
    (h : ListModelsBuilder core lt p = .ok b) :
    ∃ o, p = some o ∧
      b = { Method := .GET
            URL := if core.URLParses lt.service.Options.URL ["v3/models"] [] = true
              then some ⟨lt.service.Options.URL, ["v3/models"], []⟩ else none
            Header := mapSet "Accept" "application/json" (rangedHeaders o.Headers)
            Query :=
              (match o.Source with
                | some source => [("source", source)]
                | none => []) ++
              (match o.Target with
                | some target => [("target", target)]
                | none => []) ++
              (match o.DefaultModels with
                | some defaultModels => [("default", SprintBool defaultModels)]
                | none => []) ++
              [("version", lt.service.Options.Version)]
            Body := .None } := by
  unfold ListModelsBuilder at h
  split at h
  · cases h
  split at h
  · cases h
  rename_i o _
  refine ⟨o, rfl, ?_⟩
  simp only [constructed_eq] at h
  rcases o with ⟨_ | source, _ | target, _ | defaultModels, headers⟩ <;>
    simp [RequestBuilder.AddHeader, RequestBuilder.AddQuery,
      addHeaders_Method, addHeaders_URL, addHeaders_Query, addHeaders_Body, addHeaders_Header,
      NewRequestBuilder, rangedHeaders, SprintString] at h ⊢ <;>
    exact h.symm

/-- A request is sent only with a complete request spec that `Build` finalized, and with the
decode target of the operation. -/
theorem buildAndRequest_sent (core : Core) (lt : LanguageTranslatorV3) (target : ResultValue)
    (prepared : Except Abort RequestBuilder) (request : HTTPRequest) (t : ResultValue)
    (h : (request, t) ∈ (buildAndRequest core lt target prepared).sent) :
    ∃ b url, prepared = .ok b ∧ b.URL = some url ∧ t = target ∧
      request = { Method := b.Method, URL := url, Header := b.Header, Query := b.Query,
                  Body := b.Body } := by
  unfold buildAndRequest at h
  split at h
  · simp at h
  · simp at h
  rename_i b
  unfold RequestBuilder.Build at h
  cases hurl : b.URL with
  | none => simp [hurl] at h
  | some url =>
    simp only [hurl, List.mem_singleton, Prod.mk.injEq] at h
    exact ⟨b, url, rfl, hurl, h.2, h.1⟩

theorem foldl_mapSet_get_of_not_mem (hs : List (String × String)) (name : String)
    (init : List (String × String)) (h : name ∉ hs.map Prod.fst) :
    mapGet name (hs.foldl (fun acc e => mapSet e.1 e.2 acc) init) = mapGet name init := by
  induction hs generalizing init with
  | nil => rfl
  | cons e rest ih =>
    simp only [List.map_cons, List.mem_cons, not_or] at h
    simp only [List.foldl_cons]
    rw [ih _ h.2, mapGet_mapSet_ne _ _ _ _ h.1]

theorem foldl_mapSet_get_of_mem (hs : List (String × String)) (name value : String)
    (init : List (String × String)) (hnodup : (hs.map Prod.fst).Nodup)
    (h : (name, value) ∈ hs) :
    mapGet name (hs.foldl (fun acc e => mapSet e.1 e.2 acc) init) = some value := by
  induction hs generalizing init with
  | nil => simp at h
  | cons e rest ih =>
    simp only [List.map_cons, List.nodup_cons] at hnodup
    simp only [List.foldl_cons]
    rcases List.mem_cons.mp h with heq | hmem
    · subst heq
      rw [foldl_mapSet_get_of_not_mem _ _ _ hnodup.1, mapGet_mapSet_self]
    · exact ih _ hnodup.2 hmem

/-- The headers of the request an operation sends: the caller's, then `Accept`, and for the
operations with a body the `Content-Type`, set over them. -/
theorem sent_Header (core : Core) (lt : LanguageTranslatorV3) (operation : AnyOptions)
    (request : HTTPRequest) (target : ResultValue)
    (h : (request, target) ∈ (call core lt operation).sent) :
    request.Header =
        mapSet "Accept" "application/json" (rangedHeaders (callerHeaders operation)) ∨
      ∃ contentType, request.Header = mapSet "Content-Type" contentType
        (mapSet "Accept" "application/json" (rangedHeaders (callerHeaders operation))) := by
  cases operation with
  | Translate p =>
    obtain ⟨b, url, hb, -, -, rfl⟩ := buildAndRequest_sent _ _ _ _ _ _ h
    obtain ⟨o, rfl, rfl⟩ := TranslateBuilder_ok _ _ _ _ hb
    exact .inr ⟨_, rfl⟩
  | Identify p =>
    obtain ⟨b, url, hb, -, -, rfl⟩ := buildAndRequest_sent _ _ _ _ _ _ h
    obtain ⟨o, rfl, rfl⟩ := IdentifyBuilder_ok _ _ _ _ hb
    exact .inr ⟨_, rfl⟩
  | ListIdentifiableLanguages p =>
    obtain ⟨b, url, hb, -, -, rfl⟩ := buildAndRequest_sent _ _ _ _ _ _ h
    obtain ⟨o, rfl, rfl⟩ := ListIdentifiableLanguagesBuilder_ok _ _ _ _ hb
    exact .inl rfl
  | CreateModel p =>
    obtain ⟨b, url, hb, -, -, rfl⟩ := buildAndRequest_sent _ _ _ _ _ _ h
    obtain ⟨o, baseModelID, rfl, -, -, rfl⟩ := CreateModelBuilder_ok _ _ _ _ hb
    exact .inr ⟨_, rfl⟩
  | DeleteModel p =>
    obtain ⟨b, url, hb, -, -, rfl⟩ := buildAndRequest_sent _ _ _ _ _ _ h
    obtain ⟨o, modelID, rfl, -, rfl⟩ := DeleteModelBuilder_ok _ _ _ _ hb
    exact .inl rfl
  | GetModel p =>
    obtain ⟨b, url, hb, -, -, rfl⟩ := buildAndRequest_sent _ _ _ _ _ _ h
    obtain ⟨o, modelID, rfl, -, rfl⟩ := GetModelBuilder_ok _ _ _ _ hb
    exact .inl rfl
  | ListModels p =>
    obtain ⟨b, url, hb, -, -, rfl⟩ := buildAndRequest_sent _ _ _ _ _ _ h
    obtain ⟨o, rfl, rfl⟩ := ListModelsBuilder_ok _ _ _ _ hb
    exact .inl rfl

/-- `Translate` reaches `Build` with every options struct the validators accept. -/
theorem TranslateBuilder_of_accepted (core : Core) (lt : LanguageTranslatorV3)
    (o : TranslateOptions)
    (hnil : core.ValidateNotNil (.Translate (some o)) "translateOptions cannot be nil" = none)
    (hstruct : core.ValidateStruct (.Translate (some o)) "translateOptions" = none) :
    ∃ b, TranslateBuilder core lt (some o) = .ok b := by
  unfold TranslateBuilder
  rw [hnil, hstruct]
  simp only [constructed_eq]
  rcases o with ⟨_ | text, _ | modelID, _ | source, _ | target, headers⟩ <;>
    simp [RequestBuilder.SetBodyContentJSON, mapSet]

/-! ## The headers of a request -/

/-- C3, as the code has it: the headers the binding sets win.  On every request an operation
sends, `Accept` is `application/json` whatever the caller supplied, `Content-Type` is
`application/json` for `Translate` and `text/plain` for `Identify`, and a header of the caller
with any other name has the caller's value (the names in the caller's map being distinct). -/
theorem binding_headers_win (core : Core) (lt : LanguageTranslatorV3) (operation : AnyOptions)
    (request : HTTPRequest) (target : ResultValue)
    (h : (request, target) ∈ (call core lt operation).sent) :
    mapGet "Accept" request.Header = some "application/json" ∧
      (match operation with
        | .Translate _ => mapGet "Content-Type" request.Header = some "application/json"
        | .Identify _ => mapGet "Content-Type" request.Header = some "text/plain"
        | _ => True) ∧
      (((callerHeaders operation).map Prod.fst).Nodup →
        ∀ name value, (name, value) ∈ callerHeaders operation →
          name ≠ "Accept" → name ≠ "Content-Type" → mapGet name request.Header = some value) := by
  refine ⟨?_, ?_, ?_⟩
  · rcases sent_Header _ _ _ _ _ h with hh | ⟨contentType, hh⟩
    · rw [hh, mapGet_mapSet_self]
    · rw [hh, mapGet_mapSet_ne _ _ _ _ (by decide), mapGet_mapSet_self]
  · cases operation with
    | Translate p =>
      obtain ⟨b, url, hb, -, -, rfl⟩ := buildAndRequest_sent _ _ _ _ _ _ h
      obtain ⟨o, rfl, rfl⟩ := TranslateBuilder_ok _ _ _ _ hb
      exact mapGet_mapSet_self _ _ _
    | Identify p =>
      obtain ⟨b, url, hb, -, -, rfl⟩ := buildAndRequest_sent _ _ _ _ _ _ h
      obtain ⟨o, rfl, rfl⟩ := IdentifyBuilder_ok _ _ _ _ hb
      exact mapGet_mapSet_self _ _ _
    | _ => trivial
  · intro hnodup name value hmem hAccept hContentType
    have caller : mapGet name (rangedHeaders (callerHeaders operation)) = some value :=
      foldl_mapSet_get_of_mem _ _ _ _ hnodup hmem
    rcases sent_Header _ _ _ _ _ h with hh | ⟨contentType, hh⟩
    · rw [hh, mapGet_mapSet_ne _ _ _ _ hAccept, caller]
    · rw [hh, mapGet_mapSet_ne _ _ _ _ hContentType, mapGet_mapSet_ne _ _ _ _ hAccept, caller]

/-- The request of `sampleTranslateOverride` is sent with the binding's `Accept` and
`Content-Type` and with the caller's `X-Watson-Learning-Opt-Out`. -/
theorem binding_headers_win_witness :
    (sampleTranslateOverrideRequest, ResultValue.TranslationResult (some ⟨none, none, []⟩)) ∈
        (call sampleCore sampleService sampleTranslateOverride).sent ∧
      mapGet "Accept" sampleTranslateOverrideRequest.Header = some "application/json" ∧
      mapGet "Content-Type" sampleTranslateOverrideRequest.Header = some "application/json" ∧
      mapGet "X-Watson-Learning-Opt-Out" sampleTranslateOverrideRequest.Header = some "true" :=
  have sent : (sampleTranslateOverrideRequest,
      ResultValue.TranslationResult (some ⟨none, none, []⟩)) ∈
      (call sampleCore sampleService sampleTranslateOverride).sent := List.mem_singleton.mpr rfl
  have won := binding_headers_win sampleCore sampleService sampleTranslateOverride
    sampleTranslateOverrideRequest _ sent
  ⟨sent, won.1, won.2.1,
    won.2.2 (by decide) "X-Watson-Learning-Opt-Out" "true" (by decide) (by decide) (by decide)⟩

/-- C3, as stated, fails: the caller of `sampleTranslateOverride` supplies `Accept: text/xml`
and `Content-Type: text/csv`, and the request that is sent has `Accept: application/json` and
`Content-Type: application/json`. -/
theorem caller_headers_overwritten :
    mapGet "Accept" (callerHeaders sampleTranslateOverride) = some "text/xml" ∧
      mapGet "Content-Type" (callerHeaders sampleTranslateOverride) = some "text/csv" ∧
      (call sampleCore sampleService sampleTranslateOverride).sent.map
          (fun e => (mapGet "Accept" e.1.Header, mapGet "Content-Type" e.1.Header)) =
        [(some "application/json", some "application/json")] := by
  decide

/-! ## Service construction -/

/-- C4: `NewLanguageTranslatorV3` hands the service constructor the URL
`https://gateway.watsonplatform.net/language-translator/api` when the options have an empty
`URL` and the options' `URL` otherwise, together with the unchanged `Version`, `Username`,
`Password`, `IAMApiKey`, `IAMAccessToken` and `IAMURL`, under the name `language_translator`;
what it returns is what the constructor returns for them.  This holds for every function in the
constructor's place, so it tells its arguments. -/
theorem NewLanguageTranslatorV3_service_options
    (newWatsonService : ServiceOptions → String → Except Error WatsonService)
    (options : LanguageTranslatorV3Options) :
    (NewLanguageTranslatorV3 newWatsonService (some options)).2 =
      match newWatsonService
          { URL := if options.URL = "" then
              "https://gateway.watsonplatform.net/language-translator/api" else options.URL
            Version := options.Version
            Username := options.Username
            Password := options.Password
            IAMApiKey := options.IAMApiKey
            IAMAccessToken := options.IAMAccessToken
            IAMURL := options.IAMURL }
          "language_translator" with
      | .error serviceErr => .error (.err serviceErr)
      | .ok service => .ok { service := service } := by
  unfold NewLanguageTranslatorV3
  by_cases hurl : options.URL = ""
  · simp only [hurl, if_true]
    split <;> simp_all
  · simp only [hurl, if_false]
    split <;> simp_all

/-- C5: service construction fails on missing or partial credentials.  With the constructor of
the specification, options that have none of Basic (username and password), IAM API key and
access token, or that have a username without a password or the reverse, give a
`ConfigurationError` and no instance; and with any constructor, an error of the constructor is
returned as it is, with no instance. -/
theorem NewLanguageTranslatorV3_credentials
    (newWatsonService : ServiceOptions → String → Except Error WatsonService)
    (options : LanguageTranslatorV3Options) :
    ((¬ (options.Username ≠ "" ∧ options.Password ≠ "") ∧ options.IAMApiKey = "" ∧
          options.IAMAccessToken = "") ∨
        (options.Username ≠ "" ∧ options.Password = "") ∨
        (options.Username = "" ∧ options.Password ≠ "") →
      ∃ e, e.kind = .ConfigurationError ∧
        (NewLanguageTranslatorV3 NewWatsonService (some options)).2 = .error (.err e)) ∧
    (∀ serviceErr,
      newWatsonService
          { URL := if options.URL = "" then
              "https://gateway.watsonplatform.net/language-translator/api" else options.URL
            Version := options.Version
            Username := options.Username
            Password := options.Password
            IAMApiKey := options.IAMApiKey
            IAMAccessToken := options.IAMAccessToken
            IAMURL := options.IAMURL }
          "language_translator" = .error serviceErr →
      (NewLanguageTranslatorV3 newWatsonService (some options)).2 =
        .error (.err serviceErr)) := by
  constructor
  · intro hcred
    have hfail : ∀ so : ServiceOptions, so.Username = options.Username →
        so.Password = options.Password → so.IAMApiKey = options.IAMApiKey →
        so.IAMAccessToken = options.IAMAccessToken →
        ∃ e, e.kind = .ConfigurationError ∧ NewWatsonService so "language_translator" = .error e := by
      intro so hu hp hk ht
      unfold NewWatsonService
      by_cases hpart : (so.Username ≠ "" ∧ so.Password = "") ∨
          (so.Username = "" ∧ so.Password ≠ "")
      · exact ⟨_, rfl, if_pos hpart⟩
      · rw [if_neg hpart]
        rw [hu, hp] at hpart
        rcases hcred with ⟨hbasic, hkey, htoken⟩ | hp1 | hp2
        · have : credentialModes so = [] := by
            unfold credentialModes
            rw [hu, hp, hk, ht]
            simp [hbasic, hkey, htoken]
          rw [this]
          exact ⟨_, rfl, rfl⟩
        · exact absurd (.inl hp1) hpart
        · exact absurd (.inr hp2) hpart
    unfold NewLanguageTranslatorV3
    by_cases hurl : options.URL = ""
    · simp only [hurl, if_true]
      obtain ⟨e, hkind, he⟩ := hfail ⟨"https://gateway.watsonplatform.net/language-translator/api",
        options.Version, options.Username, options.Password, options.IAMApiKey,
        options.IAMAccessToken, options.IAMURL⟩ rfl rfl rfl rfl
      exact ⟨e, hkind, by rw [he]⟩
    · simp only [hurl, if_false]
      obtain ⟨e, hkind, he⟩ := hfail ⟨options.URL,
        options.Version, options.Username, options.Password, options.IAMApiKey,
        options.IAMAccessToken, options.IAMURL⟩ rfl rfl rfl rfl
      exact ⟨e, hkind, by rw [he]⟩
  · intro serviceErr herr
    unfold NewLanguageTranslatorV3
    by_cases hurl : options.URL = ""
    · simp only [hurl, if_true] at herr ⊢
      rw [herr]
    · simp only [hurl, if_false] at herr ⊢
      rw [herr]

/-- Options with a username and no password give a `ConfigurationError` and no instance. -/
theorem NewLanguageTranslatorV3_credentials_witness :
    ∃ e, e.kind = .ConfigurationError ∧
      (NewLanguageTranslatorV3 NewWatsonService (some sampleUsernameOnly)).2 =
        .error (.err e) :=
  (NewLanguageTranslatorV3_credentials NewWatsonService sampleUsernameOnly).1
    (.inr (.inl ⟨by decide, by decide⟩))

/-! ## Casting results -/

/-- C6: result narrowing.  For a non-nil response `r`, each `Get...Result` function returns
(it does not panic) the pointer held by `r.Result` when `r.Result` holds a value of the
function's type, and nil for every other `Result`, the nil interface included.  The functions
return nothing but this pointer: `r` is the same after the call. -/
theorem result_narrowing (r : DetailedResponse) :
    ((∀ p, r.Result = some (.TranslationResult p) → GetTranslateResult (some r) = .ok p) ∧
      ((∀ p, r.Result ≠ some (.TranslationResult p)) → GetTranslateResult (some r) = .ok none)) ∧
    ((∀ p, r.Result = some (.IdentifiedLanguages p) → GetIdentifyResult (some r) = .ok p) ∧
      ((∀ p, r.Result ≠ some (.IdentifiedLanguages p)) → GetIdentifyResult (some r) = .ok none)) ∧
    ((∀ p, r.Result = some (.IdentifiableLanguages p) →
        GetListIdentifiableLanguagesResult (some r) = .ok p) ∧
      ((∀ p, r.Result ≠ some (.IdentifiableLanguages p)) →
        GetListIdentifiableLanguagesResult (some r) = .ok none)) ∧
    ((∀ p, r.Result = some (.TranslationModel p) → GetCreateModelResult (some r) = .ok p) ∧
      ((∀ p, r.Result ≠ some (.TranslationModel p)) → GetCreateModelResult (some r) = .ok none)) ∧
    ((∀ p, r.Result = some (.DeleteModelResult p) → GetDeleteModelResult (some r) = .ok p) ∧
      ((∀ p, r.Result ≠ some (.DeleteModelResult p)) → GetDeleteModelResult (some r) = .ok none)) ∧
    ((∀ p, r.Result = some (.TranslationModel p) → GetGetModelResult (some r) = .ok p) ∧
      ((∀ p, r.Result ≠ some (.TranslationModel p)) → GetGetModelResult (some r) = .ok none)) ∧
    ((∀ p, r.Result = some (.TranslationModels p) → GetListModelsResult (some r) = .ok p) ∧
      ((∀ p, r.Result ≠ some (.TranslationModels p)) → GetListModelsResult (some r) = .ok none)) := by
  obtain ⟨status, headers, result⟩ := r
  rcases result with _ | v
  · simp [GetTranslateResult, GetIdentifyResult, GetListIdentifiableLanguagesResult,
      GetCreateModelResult, GetDeleteModelResult, GetGetModelResult, GetListModelsResult]
  · cases v <;>
      simp [GetTranslateResult, GetIdentifyResult, GetListIdentifiableLanguagesResult,
        GetCreateModelResult, GetDeleteModelResult, GetGetModelResult, GetListModelsResult]

/-- C7: every operation has a matching `Get...Result`.  The decode target an operation passes
to `service.Request` is a non-nil pointer which the operation's `Get...Result` returns as it is
from a response that holds it; and the function returns, as it is, every non-nil value of the
target's dynamic type, which is what the target is after a response was decoded into it. -/
theorem decode_target_matches (core : Core) (lt : LanguageTranslatorV3) (operation : AnyOptions)
    (request : HTTPRequest) (target : ResultValue)
    (h : (request, target) ∈ (call core lt operation).sent) :
    target.isNilPointer = false ∧
      (∀ status headers,
        getResultOf operation (some ⟨status, headers, some target⟩) = .ok target) ∧
      (∀ r v, r.Result = some v → v.dynamicType = target.dynamicType →
        v.isNilPointer = false → getResultOf operation (some r) = .ok v) := by
  have narrow : ∀ (r : DetailedResponse) (v : ResultValue), r.Result = some v →
      (match operation with
        | .Translate _ => v.dynamicType = .TranslationResult
        | .Identify _ => v.dynamicType = .IdentifiedLanguages
        | .ListIdentifiableLanguages _ => v.dynamicType = .IdentifiableLanguages
        | .CreateModel _ => v.dynamicType = .TranslationModel
        | .DeleteModel _ => v.dynamicType = .DeleteModelResult
        | .GetModel _ => v.dynamicType = .TranslationModel
        | .ListModels _ => v.dynamicType = .TranslationModels) →
      getResultOf operation (some r) = .ok v := by
    intro r v hr hty
    obtain ⟨status, headers, result⟩ := r
    simp only at hr
    subst hr
    cases operation <;> cases v <;>
      simp_all [getResultOf, ResultValue.dynamicType, GetTranslateResult, GetIdentifyResult,
        GetListIdentifiableLanguagesResult, GetCreateModelResult, GetDeleteModelResult,
        GetGetModelResult, GetListModelsResult, Except.map]
  cases operation <;>
    (obtain ⟨b, url, -, -, rfl, -⟩ := buildAndRequest_sent _ _ _ _ _ _ h
     refine ⟨rfl, fun status headers => narrow _ _ rfl rfl, fun r v hr hty _ => ?_⟩
     exact narrow r v hr hty)

/-- The response `sampleDeleteModelResponse` holds the decode target that the call
`sampleDeleteModel` passed, filled in, and `GetDeleteModelResult` returns it. -/
theorem decode_target_matches_witness :
    (sampleDeleteModelRequest, ResultValue.DeleteModelResult (some ⟨none⟩)) ∈
        (call sampleCore sampleService sampleDeleteModel).sent ∧
      getResultOf sampleDeleteModel (some sampleDeleteModelResponse) =
        .ok (.DeleteModelResult (some ⟨some "OK"⟩)) :=
  have sent : (sampleDeleteModelRequest, ResultValue.DeleteModelResult (some ⟨none⟩)) ∈
      (call sampleCore sampleService sampleDeleteModel).sent := List.mem_singleton.mpr rfl
  ⟨sent, (decode_target_matches sampleCore sampleService sampleDeleteModel
    sampleDeleteModelRequest _ sent).2.2 sampleDeleteModelResponse _ rfl rfl rfl⟩

/-! ## The files of `CreateModel` and the model of `Translate` -/

/-- C8 fails on the code: every request `CreateModel` sends has at most one form-data part with
the field name `parallel_corpus`, and the request for `sampleCreateModelOptions`, which has a
parallel corpus, has exactly one. -/
theorem CreateModel_one_parallel_corpus (core : Core) (lt : LanguageTranslatorV3)
    (p : Option CreateModelOptions) :
    (CreateModel core lt p).sent.all
        (fun e => decide ((partsNamed "parallel_corpus" e.1.Body).length ≤ 1)) = true ∧
      (CreateModel sampleCore sampleService (some sampleCreateModelOptions)).sent.map
        (fun e => (partsNamed "parallel_corpus" e.1.Body).length) = [1] := by
  refine ⟨?_, by decide⟩
  rw [List.all_eq_true]
  rintro ⟨request, target⟩ hmem
  obtain ⟨b, url, hb, -, -, rfl⟩ := buildAndRequest_sent _ _ _ _ _ _ hmem
  obtain ⟨o, baseModelID, rfl, -, -, rfl⟩ := CreateModelBuilder_ok _ _ _ _ hb
  rcases o with ⟨base, name, _ | forcedGlossary, fgName, _ | parallelCorpus, pcName, hs⟩ <;>
    simp [partsNamed, createModelParts, List.filter_cons]

/-- C9: the form-data parts of `CreateModel` are, in this order, the `forced_glossary` part when
`ForcedGlossary` is not nil and the `parallel_corpus` part when `ParallelCorpus` is not nil; each
has the content type `application/octet-stream`, the file, and the nil-mapped filename option as
its filename.  With both files the parts are exactly two, `forced_glossary` first.  The request
that is sent has this body. -/
theorem CreateModel_form_parts (core : Core) (lt : LanguageTranslatorV3)
    (o : CreateModelOptions) (b : RequestBuilder)
    (h : CreateModelBuilder core lt (some o) = .ok b) :
    b.Body = .FormData
        ((match o.ForcedGlossary with
          | some forcedGlossary =>
            [⟨"forced_glossary", core.StringNilMapper o.ForcedGlossaryFilename,
              "application/octet-stream", forcedGlossary⟩]
          | none => []) ++
        (match o.ParallelCorpus with
          | some parallelCorpus =>
            [⟨"parallel_corpus", core.StringNilMapper o.ParallelCorpusFilename,
              "application/octet-stream", parallelCorpus⟩]
          | none => [])) ∧
      (∀ forcedGlossary parallelCorpus, o.ForcedGlossary = some forcedGlossary →
        o.ParallelCorpus = some parallelCorpus →
        b.Body = .FormData
          [⟨"forced_glossary", core.StringNilMapper o.ForcedGlossaryFilename,
              "application/octet-stream", forcedGlossary⟩,
            ⟨"parallel_corpus", core.StringNilMapper o.ParallelCorpusFilename,
              "application/octet-stream", parallelCorpus⟩]) ∧
      (∀ request target, (request, target) ∈ (CreateModel core lt (some o)).sent →
        request.Body = b.Body) := by
  obtain ⟨o', baseModelID, ho, -, -, rfl⟩ := CreateModelBuilder_ok _ _ _ _ h
  cases ho
  refine ⟨rfl, ?_, ?_⟩
  · intro forcedGlossary parallelCorpus hfg hpc
    simp [createModelParts, hfg, hpc]
  · intro request target hmem
    obtain ⟨b', url, hb, -, -, rfl⟩ := buildAndRequest_sent _ _ _ _ _ _ hmem
    rw [h] at hb
    cases hb
    rfl

/-- The request spec for `sampleCreateModelOptions` has two parts, `forced_glossary` first, the
second with the empty filename that `StringNilMapper` gives for nil. -/
theorem CreateModel_form_parts_witness :
    CreateModelBuilder sampleCore sampleService (some sampleCreateModelOptions) =
        .ok sampleCreateModelBuilder ∧
      sampleCreateModelBuilder.Body = .FormData
        [⟨"forced_glossary", "glossary.tmx", "application/octet-stream", ⟨"glossary.tmx"⟩⟩,
          ⟨"parallel_corpus", "", "application/octet-stream", ⟨"corpus.tmx"⟩⟩] :=
  ⟨rfl, (CreateModel_form_parts sampleCore sampleService sampleCreateModelOptions
    sampleCreateModelBuilder rfl).2.1 _ _ rfl rfl⟩

/-- C10 fails on the code: `Translate` has no check of `ModelID`, `Source` and `Target`.  For
options with no model ID and without a source or a target which the validators accept, and a
service URL that parses, `Translate` invokes `service.Request` once and returns what it
returns. -/
theorem Translate_sends_without_model (core : Core) (lt : LanguageTranslatorV3)
    (o : TranslateOptions)
    (_hmodel : o.ModelID = none) (_hlanguages : o.Source = none ∨ o.Target = none)
    (hnil : core.ValidateNotNil (.Translate (some o)) "translateOptions cannot be nil" = none)
    (hstruct : core.ValidateStruct (.Translate (some o)) "translateOptions" = none)
    (hurl : core.URLParses lt.service.Options.URL ["v3/translate"] [] = true) :
    ∃ request target, (Translate core lt (some o)).sent = [(request, target)] ∧
      (Translate core lt (some o)).returned =
        .values (core.Request lt.service request target).1
          (core.Request lt.service request target).2 := by
  obtain ⟨b, hb⟩ := TranslateBuilder_of_accepted core lt o hnil hstruct
  obtain ⟨o', ho, hshape⟩ := TranslateBuilder_ok _ _ _ _ hb
  cases ho
  rw [if_pos hurl] at hshape
  refine ⟨⟨b.Method, ⟨lt.service.Options.URL, ["v3/translate"], []⟩, b.Header, b.Query, b.Body⟩,
    .TranslationResult (some ⟨none, none, []⟩), ?_⟩
  have hbuild : b.Build = .ok ⟨b.Method, ⟨lt.service.Options.URL, ["v3/translate"], []⟩,
      b.Header, b.Query, b.Body⟩ := by
    rw [hshape]
    rfl
  simp only [Translate, buildAndRequest, hb, hbuild]
  exact ⟨trivial, trivial⟩

/-- The options `sampleTranslateTextOnly` have a text only; they pass the validators of
`sampleCore`, and `Translate` sends the request for them. -/
theorem Translate_sends_without_model_witness :
    (Translate sampleCore sampleService (some sampleTranslateTextOnly)).sent.map (·.1) =
      [sampleTranslateTextOnlyRequest] ∧
    ∃ request target,
      (Translate sampleCore sampleService (some sampleTranslateTextOnly)).sent =
        [(request, target)] ∧
      (Translate sampleCore sampleService (some sampleTranslateTextOnly)).returned =
        .values (sampleCore.Request sampleService.service request target).1
          (sampleCore.Request sampleService.service request target).2 :=
  ⟨rfl, Translate_sends_without_model sampleCore sampleService sampleTranslateTextOnly rfl
    (.inl rfl) rfl rfl rfl⟩

/-! ## The Authorization header of Basic credentials -/

/-- An instance comes from a service the constructor returned for the caller's credentials. -/
theorem NewLanguageTranslatorV3_ok
    (newWatsonService : ServiceOptions → String → Except Error WatsonService)
    (options : LanguageTranslatorV3Options) (lt : LanguageTranslatorV3)
    (h : (NewLanguageTranslatorV3 newWatsonService (some options)).2 = .ok lt) :
    ∃ url, newWatsonService ⟨url, options.Version, options.Username, options.Password,
      options.IAMApiKey, options.IAMAccessToken, options.IAMURL⟩ "language_translator" =
        .ok lt.service := by
  unfold NewLanguageTranslatorV3 at h
  by_cases hurl : options.URL = ""
  · simp only [hurl, if_true] at h
    split at h
    · cases h
    · rename_i service hservice
      cases h
      exact ⟨_, hservice⟩
  · simp only [hurl, if_false] at h
    split at h
    · cases h
    · rename_i service hservice
      cases h
      exact ⟨_, hservice⟩

/-- A service made from options with a username and a password has Basic credentials. -/
theorem NewWatsonService_basic (so : ServiceOptions) (name : String) (service : WatsonService)
    (hU : so.Username ≠ "") (hP : so.Password ≠ "")
    (h : NewWatsonService so name = .ok service) :
    service.Credentials = .BasicAuth so.Username so.Password := by
  unfold NewWatsonService at h
  split at h
  · cases h
  · unfold credentialModes at h
    by_cases hkey : so.IAMApiKey = "" <;> by_cases htoken : so.IAMAccessToken = "" <;>
      simp [hU, hP, hkey, htoken] at h
    rw [← h]

/-- Options with a username and a password and without IAM credentials make a service. -/
theorem NewWatsonService_of_basic (so : ServiceOptions) (name : String)
    (hU : so.Username ≠ "") (hP : so.Password ≠ "") (hkey : so.IAMApiKey = "")
    (htoken : so.IAMAccessToken = "") :
    NewWatsonService so name = .ok ⟨so, .BasicAuth so.Username so.Password, name⟩ := by
  unfold NewWatsonService credentialModes
  simp [hU, hP, hkey, htoken]

/-- C11: for Basic credentials, a non-empty username and password in the service options, the
Authorization header computed for a request of the instance is `Basic ` followed by the base64
encoding of `<username>:<password>`, whatever the token exchange and the clock; the instance
exists when the options have no IAM credentials beside; and two computations from the same
username and password give the same header value. -/
theorem basic_authorization_header (exchange : String → String → Option (String × Nat))
    (now : Nat) (options : LanguageTranslatorV3Options)
    (hU : options.Username ≠ "") (hP : options.Password ≠ "") :
    (∀ lt, (NewLanguageTranslatorV3 NewWatsonService (some options)).2 = .ok lt →
      getAuthHeader exchange now lt.service.Credentials =
        .ok ("Basic " ++ base64 (options.Username ++ ":" ++ options.Password),
          lt.service.Credentials)) ∧
    (options.IAMApiKey = "" → options.IAMAccessToken = "" →
      ∃ lt, (NewLanguageTranslatorV3 NewWatsonService (some options)).2 = .ok lt) ∧
    (∀ exchange' now' options' lt lt',
      options'.Username = options.Username → options'.Password = options.Password →
      (NewLanguageTranslatorV3 NewWatsonService (some options)).2 = .ok lt →
      (NewLanguageTranslatorV3 NewWatsonService (some options')).2 = .ok lt' →
      (getAuthHeader exchange now lt.service.Credentials).map Prod.fst =
        (getAuthHeader exchange' now' lt'.service.Credentials).map Prod.fst) := by
  have basic : ∀ (o : LanguageTranslatorV3Options) (lt : LanguageTranslatorV3),
      o.Username ≠ "" → o.Password ≠ "" →
      (NewLanguageTranslatorV3 NewWatsonService (some o)).2 = .ok lt →
      lt.service.Credentials = .BasicAuth o.Username o.Password := by
    intro o lt hu hp hlt
    obtain ⟨url, hservice⟩ := NewLanguageTranslatorV3_ok _ _ _ hlt
    exact NewWatsonService_basic _ _ _ hu hp hservice
  refine ⟨?_, ?_, ?_⟩
  · intro lt hlt
    rw [basic options lt hU hP hlt]
    rfl
  · intro hkey htoken
    unfold NewLanguageTranslatorV3
    by_cases hurl : options.URL = ""
    · simp only [hurl, if_true]
      rw [NewWatsonService_of_basic _ _ hU hP hkey htoken]
      exact ⟨_, rfl⟩
    · simp only [hurl, if_false]
      rw [NewWatsonService_of_basic _ _ hU hP hkey htoken]
      exact ⟨_, rfl⟩
  · intro exchange' now' options' lt lt' hu' hp' hlt hlt'
    rw [basic options lt hU hP hlt, basic options' lt' (hu' ▸ hU) (hp' ▸ hP) hlt', hu', hp']
    rfl

/-- The header of the instance made from `sampleBasicOptions`, the user `user` with the password
`pass`, is `Basic dXNlcjpwYXNz`. -/
theorem basic_authorization_header_witness :
    (NewLanguageTranslatorV3 NewWatsonService (some sampleBasicOptions)).2 = .ok sampleService ∧
      getAuthHeader (fun _ _ => none) 0 sampleService.service.Credentials =
        .ok ("Basic dXNlcjpwYXNz", sampleService.service.Credentials) :=
  ⟨rfl, (basic_authorization_header (fun _ _ => none) 0 sampleBasicOptions (by decide)
    (by decide)).1 sampleService rfl⟩

/-! ## One invocation of `service.Request` -/

/-- A call is the common tail of the operations, run on the operation's request spec with the
operation's decode target. -/
theorem call_eq (core : Core) (lt : LanguageTranslatorV3) (operation : AnyOptions) :
    call core lt operation =
      buildAndRequest core lt (decodeTargetOf operation) (builderOf core lt operation) := by
  cases operation <;> rfl

/-- An operation whose validation fails stops with the validation's error. -/
theorem builderOf_validationError (core : Core) (lt : LanguageTranslatorV3)
    (operation : AnyOptions) (err : Error) (h : validationError core operation = some err) :
    builderOf core lt operation = .error (.err err) := by
  cases operation with
  | Translate p =>
    simp only [validationError] at h
    simp only [builderOf, TranslateBuilder]
    split at h
    · cases h
      rfl
    · rw [h]
  | Identify p =>
    simp only [validationError] at h
    simp only [builderOf, IdentifyBuilder]
    split at h
    · cases h
      rfl
    · rw [h]
  | ListIdentifiableLanguages p =>
    simp only [validationError] at h
    simp only [builderOf, ListIdentifiableLanguagesBuilder]
    rw [h]
  | CreateModel p =>
    simp only [validationError] at h
    simp only [builderOf, CreateModelBuilder]
    split at h
    · cases h
      rfl
    · rw [h]
  | DeleteModel p =>
    simp only [validationError] at h
    simp only [builderOf, DeleteModelBuilder]
    split at h
    · cases h
      rfl
    · rw [h]
  | GetModel p =>
    simp only [validationError] at h
    simp only [builderOf, GetModelBuilder]
    split at h
    · cases h
      rfl
    · rw [h]
  | ListModels p =>
    simp only [validationError] at h
    simp only [builderOf, ListModelsBuilder]
    rw [h]

/-- The missing-file check of `CreateModel`, for options the validators accept. -/
theorem CreateModelBuilder_missing_files (core : Core) (lt : LanguageTranslatorV3)
    (o : CreateModelOptions)
    (hvalid : validationError core (.CreateModel (some o)) = none)
    (hfg : o.ForcedGlossary = none) (hpc : o.ParallelCorpus = none) :
    CreateModelBuilder core lt (some o) = .error
      (.err (Errorf "At least one of forcedGlossary or parallelCorpus must be supplied")) := by
  simp only [validationError] at hvalid
  split at hvalid
  · cases hvalid
  · rename_i hnil
    simp only [CreateModelBuilder]
    rw [hnil, hvalid]
    simp [hfg, hpc]

/-- The common tail of the operations invokes `service.Request` at most once. -/
theorem buildAndRequest_sent_length (core : Core) (lt : LanguageTranslatorV3)
    (target : ResultValue) (prepared : Except Abort RequestBuilder) :
    (buildAndRequest core lt target prepared).sent.length ≤ 1 := by
  unfold buildAndRequest
  split
  · simp
  · simp
  · split <;> simp

/-- The common tail of the operations, on a request spec that `Build` finalizes. -/
theorem buildAndRequest_built (core : Core) (lt : LanguageTranslatorV3) (target : ResultValue)
    (b : RequestBuilder) (request : HTTPRequest) (h : b.Build = .ok request) :
    buildAndRequest core lt target (.ok b) =
      ⟨[(request, target)], .values (core.Request lt.service request target).1
        (core.Request lt.service request target).2⟩ := by
  simp only [buildAndRequest, h]

/-- The common tail of the operations, on a request spec that `Build` refuses. -/
theorem buildAndRequest_not_built (core : Core) (lt : LanguageTranslatorV3)
    (target : ResultValue) (b : RequestBuilder) (err : Error) (h : b.Build = .error err) :
    buildAndRequest core lt target (.ok b) = ⟨[], .values none (some err)⟩ := by
  simp only [buildAndRequest, h]

/-- C12: exactly one network attempt, and none after a local failure.  A call of an operation
invokes `service.Request` at most once.  When the operation reaches `Build` and `Build`
succeeds, it invokes `service.Request` exactly once, with the built request and its decode
target, and returns the pair that `service.Request` returned.  When the validation of the
options fails (`ValidateNotNil` or `ValidateStruct`), or the missing-file check of `CreateModel`,
or anything else before `Build` returns an error (the body setup), or `Build` does, the operation
returns a nil response with that error and does not invoke `service.Request`. -/
theorem one_network_attempt (core : Core) (lt : LanguageTranslatorV3) (operation : AnyOptions) :
    (call core lt operation).sent.length ≤ 1 ∧
    (∀ b request, builderOf core lt operation = .ok b → b.Build = .ok request →
      (call core lt operation).sent = [(request, decodeTargetOf operation)] ∧
      (call core lt operation).returned =
        .values (core.Request lt.service request (decodeTargetOf operation)).1
          (core.Request lt.service request (decodeTargetOf operation)).2) ∧
    (∀ err,
      (validationError core operation = some err ∨
        (∃ o, operation = .CreateModel (some o) ∧ validationError core operation = none ∧
          o.ForcedGlossary = none ∧ o.ParallelCorpus = none ∧
          err = Errorf "At least one of forcedGlossary or parallelCorpus must be supplied") ∨
        builderOf core lt operation = .error (.err err) ∨
        (∃ b, builderOf core lt operation = .ok b ∧ b.Build = .error err)) →
      (call core lt operation).sent = [] ∧
        (call core lt operation).returned = .values none (some err)) := by
  rw [call_eq]
  refine ⟨buildAndRequest_sent_length _ _ _ _, ?_, ?_⟩
  · intro b request hb hbuild
    rw [hb, buildAndRequest_built _ _ _ _ _ hbuild]
    exact ⟨rfl, rfl⟩
  · intro err hfail
    have stopped : builderOf core lt operation = .error (.err err) ∨
        ∃ b, builderOf core lt operation = .ok b ∧ b.Build = .error err := by
      rcases hfail with hvalid | ⟨o, rfl, hvalid, hfg, hpc, rfl⟩ | hstop | hbuild
      · exact .inl (builderOf_validationError _ _ _ _ hvalid)
      · exact .inl (CreateModelBuilder_missing_files _ _ _ hvalid hfg hpc)
      · exact .inl hstop
      · exact .inr hbuild
    rcases stopped with hstop | ⟨b, hb, hbuild⟩
    · rw [hstop]
      exact ⟨rfl, rfl⟩
    · rw [hb, buildAndRequest_not_built _ _ _ _ _ hbuild]
      exact ⟨rfl, rfl⟩

/-- The call `sampleDeleteModel` makes one request and returns the answer of `service.Request`,
and the call `sampleDeleteModelNil` makes none and returns the error of `ValidateNotNil`. -/
theorem one_network_attempt_witness :
    ((call sampleCore sampleService sampleDeleteModel).sent =
        [(sampleDeleteModelRequest, .DeleteModelResult (some ⟨none⟩))] ∧
      (call sampleCore sampleService sampleDeleteModel).returned =
        .values (some ⟨200, [], some (.DeleteModelResult (some ⟨none⟩))⟩) none) ∧
    ((call sampleCore sampleService sampleDeleteModelNil).sent = [] ∧
      (call sampleCore sampleService sampleDeleteModelNil).returned =
        .values none (some ⟨.ValidationError, "deleteModelOptions cannot be nil"⟩)) :=
  ⟨(one_network_attempt sampleCore sampleService sampleDeleteModel).2.1 _
      sampleDeleteModelRequest rfl rfl,
    (one_network_attempt sampleCore sampleService sampleDeleteModelNil).2.2 _ (.inl rfl)⟩

/-! ## The files and the required fields of `CreateModel`, `DeleteModel` and `GetModel` -/

/-- `Build` fails with an `InvalidPathError` only. -/
theorem Build_error_kind (b : RequestBuilder) (err : Error) (h : b.Build = .error err) :
    err.kind = .InvalidPathError := by
  unfold RequestBuilder.Build at h
  split at h
  · cases h
    rfl
  · cases h

/-- `CreateModel` with options that pass the validation and have a file: the `BaseModelID` is
dereferenced, which panics when it is nil and otherwise leads to `Build`. -/
theorem CreateModelBuilder_with_file (core : Core) (lt : LanguageTranslatorV3)
    (o : CreateModelOptions)
    (hnil : core.ValidateNotNil (.CreateModel (some o)) "createModelOptions cannot be nil" = none)
    (hstruct : core.ValidateStruct (.CreateModel (some o)) "createModelOptions" = none)
    (hfiles : ¬ (o.ForcedGlossary = none ∧ o.ParallelCorpus = none)) :
    (o.BaseModelID = none ∧ CreateModelBuilder core lt (some o) = .error nilDereference) ∨
      ∃ baseModelID b, o.BaseModelID = some baseModelID ∧
        CreateModelBuilder core lt (some o) = .ok b := by
  unfold CreateModelBuilder
  rw [hnil, hstruct]
  simp only [if_neg hfiles]
  cases hbase : o.BaseModelID with
  | none => exact .inl ⟨rfl, rfl⟩
  | some baseModelID => exact .inr ⟨baseModelID, _, rfl, rfl⟩

/-- C14: `CreateModel` requires at least one file.  For non-nil options that pass the
validation, the call returns a nil response and the error `At least one of forcedGlossary or
parallelCorpus must be supplied` without a request if and only if `ForcedGlossary` and
`ParallelCorpus` are both nil; in that case the function stops before its request builder
exists, so no request is built or sent. -/
theorem CreateModel_requires_a_file (core : Core) (lt : LanguageTranslatorV3)
    (o : CreateModelOptions)
    (hnil : core.ValidateNotNil (.CreateModel (some o)) "createModelOptions cannot be nil" = none)
    (hstruct : core.ValidateStruct (.CreateModel (some o)) "createModelOptions" = none) :
    (((CreateModel core lt (some o)).returned = .values none
          (some (Errorf "At least one of forcedGlossary or parallelCorpus must be supplied")) ∧
        (CreateModel core lt (some o)).sent = []) ↔
      (o.ForcedGlossary = none ∧ o.ParallelCorpus = none)) ∧
    ((o.ForcedGlossary = none ∧ o.ParallelCorpus = none) →
      CreateModelBuilder core lt (some o) = .error
        (.err (Errorf "At least one of forcedGlossary or parallelCorpus must be supplied"))) := by
  have hvalid : validationError core (.CreateModel (some o)) = none := by
    simp only [validationError, hnil, hstruct]
  have stops : (o.ForcedGlossary = none ∧ o.ParallelCorpus = none) →
      CreateModelBuilder core lt (some o) = .error
        (.err (Errorf "At least one of forcedGlossary or parallelCorpus must be supplied")) :=
    fun hboth => CreateModelBuilder_missing_files core lt o hvalid hboth.1 hboth.2
  refine ⟨⟨?_, ?_⟩, stops⟩
  · rintro ⟨hreturned, hsent⟩
    by_contra hfiles
    rcases CreateModelBuilder_with_file core lt o hnil hstruct hfiles with
      ⟨-, hpanic⟩ | ⟨baseModelID, b, -, hb⟩
    · simp only [CreateModel, hpanic, nilDereference, buildAndRequest] at hreturned
      cases hreturned
    · cases hbuild : b.Build with
      | error err =>
        simp only [CreateModel, hb, buildAndRequest_not_built _ _ _ _ _ hbuild] at hreturned
        have hkind := Build_error_kind b err hbuild
        cases hreturned
        cases hkind
      | ok request =>
        simp only [CreateModel, hb, buildAndRequest_built _ _ _ _ _ hbuild] at hsent
        cases hsent
  · intro hboth
    simp only [CreateModel, stops hboth, buildAndRequest]
    exact ⟨trivial, trivial⟩

/-- The options `sampleCreateModelNoFile` pass the validation of `sampleCore`, and `CreateModel`
returns the error without building a request. -/
theorem CreateModel_requires_a_file_witness :
    (CreateModel sampleCore sampleService (some sampleCreateModelNoFile)).returned =
        .values none
          (some (Errorf "At least one of forcedGlossary or parallelCorpus must be supplied")) ∧
      (CreateModel sampleCore sampleService (some sampleCreateModelNoFile)).sent = [] :=
  (CreateModel_requires_a_file sampleCore sampleService sampleCreateModelNoFile rfl rfl).1.2
    ⟨rfl, rfl⟩

/-- A call panics only if its request spec does. -/
theorem buildAndRequest_panicked (core : Core) (lt : LanguageTranslatorV3)
    (target : ResultValue) (prepared : Except Abort RequestBuilder) (reason : String)
    (h : (buildAndRequest core lt target prepared).returned = .panicked reason) :
    prepared = .error (.panic reason) := by
  unfold buildAndRequest at h
  split at h
  · cases h
    rfl
  · cases h
  · split at h <;> cases h

/-- C15: no nil dereference of required fields.  Let `ValidateNotNil` reject the nil options
pointer and `ValidateStruct` reject options whose field tagged `validate:"required"` is nil.
Then for every input, `CreateModel` returns an error before it dereferences `BaseModelID` or
dereferences a non-nil pointer, and so do `DeleteModel` and `GetModel` with `ModelID`; none of
the three panics. -/
theorem required_fields_dereferenced_safely (core : Core) (lt : LanguageTranslatorV3)
    (hnil : ∀ message,
      core.ValidateNotNil (.CreateModel none) message ≠ none ∧
      core.ValidateNotNil (.DeleteModel none) message ≠ none ∧
      core.ValidateNotNil (.GetModel none) message ≠ none)
    (hrequired : ∀ paramName,
      (∀ o : CreateModelOptions, o.BaseModelID = none →
        core.ValidateStruct (.CreateModel (some o)) paramName ≠ none) ∧
      (∀ o : DeleteModelOptions, o.ModelID = none →
        core.ValidateStruct (.DeleteModel (some o)) paramName ≠ none) ∧
      (∀ o : GetModelOptions, o.ModelID = none →
        core.ValidateStruct (.GetModel (some o)) paramName ≠ none)) :
    (∀ p, ((∃ err, CreateModelBuilder core lt p = .error (.err err)) ∨
        ∃ o baseModelID b, p = some o ∧ o.BaseModelID = some baseModelID ∧
          CreateModelBuilder core lt p = .ok b) ∧
      ∀ reason, (CreateModel core lt p).returned ≠ .panicked reason) ∧
    (∀ p, ((∃ err, DeleteModelBuilder core lt p = .error (.err err)) ∨
        ∃ o modelID b, p = some o ∧ o.ModelID = some modelID ∧
          DeleteModelBuilder core lt p = .ok b) ∧
      ∀ reason, (DeleteModel core lt p).returned ≠ .panicked reason) ∧
    (∀ p, ((∃ err, GetModelBuilder core lt p = .error (.err err)) ∨
        ∃ o modelID b, p = some o ∧ o.ModelID = some modelID ∧
          GetModelBuilder core lt p = .ok b) ∧
      ∀ reason, (GetModel core lt p).returned ≠ .panicked reason) := by
  have noPanic : ∀ (target : ResultValue) (prepared : Except Abort RequestBuilder),
      ((∃ err, prepared = .error (.err err)) ∨ ∃ b, prepared = .ok b) →
      ∀ reason, (buildAndRequest core lt target prepared).returned ≠ .panicked reason := by
    intro target prepared hsafe reason hpanic
    have := buildAndRequest_panicked _ _ _ _ _ hpanic
    rcases hsafe with ⟨err, herr⟩ | ⟨b, hb⟩
    · rw [herr] at this
      cases this
    · rw [hb] at this
      cases this
  have create : ∀ p, (∃ err, CreateModelBuilder core lt p = .error (.err err)) ∨
      ∃ o baseModelID b, p = some o ∧ o.BaseModelID = some baseModelID ∧
        CreateModelBuilder core lt p = .ok b := by
    intro p
    cases hv : validationError core (.CreateModel p) with
    | some err => exact .inl ⟨err, builderOf_validationError core lt _ err hv⟩
    | none =>
      simp only [validationError] at hv
      split at hv
      · cases hv
      rename_i hnotnil
      cases p with
      | none => exact absurd hnotnil (hnil _).1
      | some o =>
        by_cases hfiles : o.ForcedGlossary = none ∧ o.ParallelCorpus = none
        · exact .inl ⟨_, CreateModelBuilder_missing_files core lt o
            (by simp only [validationError, hnotnil, hv]) hfiles.1 hfiles.2⟩
        · rcases CreateModelBuilder_with_file core lt o hnotnil hv hfiles with
            ⟨hbase, -⟩ | ⟨baseModelID, b, hbase, hb⟩
          · exact absurd hv ((hrequired _).1 o hbase)
          · exact .inr ⟨o, baseModelID, b, rfl, hbase, hb⟩
  have delete : ∀ p, (∃ err, DeleteModelBuilder core lt p = .error (.err err)) ∨
      ∃ o modelID b, p = some o ∧ o.ModelID = some modelID ∧
        DeleteModelBuilder core lt p = .ok b := by
    intro p
    cases hv : validationError core (.DeleteModel p) with
    | some err => exact .inl ⟨err, builderOf_validationError core lt _ err hv⟩
    | none =>
      simp only [validationError] at hv
      split at hv
      · cases hv
      rename_i hnotnil
      cases p with
      | none => exact absurd hnotnil (hnil _).2.1
      | some o =>
        cases hid : o.ModelID with
        | none => exact absurd hv ((hrequired _).2.1 o hid)
        | some modelID =>
          have reached : ∃ b, DeleteModelBuilder core lt (some o) = .ok b := by
            unfold DeleteModelBuilder
            rw [hnotnil, hv]
            simp only [hid]
            exact ⟨_, rfl⟩
          obtain ⟨b, hb⟩ := reached
          exact .inr ⟨o, modelID, b, rfl, hid, hb⟩
  have get : ∀ p, (∃ err, GetModelBuilder core lt p = .error (.err err)) ∨
      ∃ o modelID b, p = some o ∧ o.ModelID = some modelID ∧
        GetModelBuilder core lt p = .ok b := by
    intro p
    cases hv : validationError core (.GetModel p) with
    | some err => exact .inl ⟨err, builderOf_validationError core lt _ err hv⟩
    | none =>
      simp only [validationError] at hv
      split at hv
      · cases hv
      rename_i hnotnil
      cases p with
      | none => exact absurd hnotnil (hnil _).2.2
      | some o =>
        cases hid : o.ModelID with
        | none => exact absurd hv ((hrequired _).2.2 o hid)
        | some modelID =>
          have reached : ∃ b, GetModelBuilder core lt (some o) = .ok b := by
            unfold GetModelBuilder
            rw [hnotnil, hv]
            simp only [hid]
            exact ⟨_, rfl⟩
          obtain ⟨b, hb⟩ := reached
          exact .inr ⟨o, modelID, b, rfl, hid, hb⟩
  refine ⟨fun p => ⟨create p, noPanic _ _ ?_⟩, fun p => ⟨delete p, noPanic _ _ ?_⟩,
    fun p => ⟨get p, noPanic _ _ ?_⟩⟩
  · rcases create p with h | ⟨o, baseModelID, b, -, -, hb⟩
    · exact .inl h
    · exact .inr ⟨b, hb⟩
  · rcases delete p with h | ⟨o, modelID, b, -, -, hb⟩
    · exact .inl h
    · exact .inr ⟨b, hb⟩
  · rcases get p with h | ⟨o, modelID, b, -, -, hb⟩
    · exact .inl h
    · exact .inr ⟨b, hb⟩

/-- The validators of `sampleCore` reject nil options and nil required fields; with them
`DeleteModel` on a nil pointer, and on options with a nil `ModelID`, returns an error and does
not panic. -/
theorem required_fields_dereferenced_safely_witness :
    (∃ err, DeleteModelBuilder sampleCore sampleService none = .error (.err err)) ∧
      (∃ err, DeleteModelBuilder sampleCore sampleService (some ⟨none, []⟩) =
        .error (.err err)) ∧
      ∀ reason, (DeleteModel sampleCore sampleService (some ⟨none, []⟩)).returned ≠
        .panicked reason :=
  have safe := required_fields_dereferenced_safely sampleCore sampleService
    (fun _ => ⟨Option.some_ne_none _, Option.some_ne_none _, Option.some_ne_none _⟩)
    (fun _ => ⟨fun o ho => by cases o; cases ho; exact Option.some_ne_none _,
      fun o ho => by cases o; cases ho; exact Option.some_ne_none _,
      fun o ho => by cases o; cases ho; exact Option.some_ne_none _⟩)
  ⟨⟨_, rfl⟩, ⟨_, rfl⟩, (safe.2.1 (some ⟨none, []⟩)).2⟩

/-! ## Accepted options reach `Build` and `service.Request` -/

/-- An operation hands a request spec to `Build` for every options value it accepts. -/
theorem builderOf_of_accepts (core : Core) (lt : LanguageTranslatorV3) (operation : AnyOptions)
    (h : accepts core operation = true) : ∃ b, builderOf core lt operation = .ok b := by
  cases operation with
  | Translate p =>
    simp only [accepts, validationError, Bool.and_eq_true, Option.isNone_iff_eq_none,
      Option.isSome_iff_exists] at h
    obtain ⟨hv, o, rfl⟩ := h
    split at hv
    · cases hv
    rename_i hnil
    exact TranslateBuilder_of_accepted core lt o hnil hv
  | Identify p =>
    simp only [accepts, validationError, Bool.and_eq_true, Option.isNone_iff_eq_none,
      Option.isSome_iff_exists] at h
    obtain ⟨hv, o, rfl⟩ := h
    split at hv
    · cases hv
    rename_i hnil
    simp only [builderOf, IdentifyBuilder]
    rw [hnil, hv]
    simp [constructed_eq, RequestBuilder.SetBodyContent, RequestBuilder.AddHeader,
      RequestBuilder.AddQuery, addHeaders_Body, NewRequestBuilder]
  | ListIdentifiableLanguages p =>
    simp only [accepts, validationError, Bool.and_eq_true, Option.isNone_iff_eq_none,
      Option.isSome_iff_exists] at h
    obtain ⟨hv, o, rfl⟩ := h
    simp only [builderOf, ListIdentifiableLanguagesBuilder]
    rw [hv]
    exact ⟨_, rfl⟩
  | CreateModel p =>
    cases p with
    | none => simp [accepts] at h
    | some o =>
      simp only [accepts, validationError, Bool.and_eq_true, Option.isNone_iff_eq_none,
        Option.isSome_iff_exists, Bool.or_eq_true] at h
      obtain ⟨hv, ⟨baseModelID, hbase⟩, hfile⟩ := h
      split at hv
      · cases hv
      rename_i hnil
      have hfiles : ¬ (o.ForcedGlossary = none ∧ o.ParallelCorpus = none) := by
        rintro ⟨hfg, hpc⟩
        rcases hfile with ⟨f, hf⟩ | ⟨f, hf⟩
        · rw [hfg] at hf
          cases hf
        · rw [hpc] at hf
          cases hf
      rcases CreateModelBuilder_with_file core lt o hnil hv hfiles with
        ⟨hnone, -⟩ | ⟨_, b, -, hb⟩
      · rw [hnone] at hbase
        cases hbase
      · exact ⟨b, hb⟩
  | DeleteModel p =>
    cases p with
    | none => simp [accepts] at h
    | some o =>
      simp only [accepts, validationError, Bool.and_eq_true, Option.isNone_iff_eq_none,
        Option.isSome_iff_exists] at h
      obtain ⟨hv, modelID, hid⟩ := h
      split at hv
      · cases hv
      rename_i hnil
      simp only [builderOf, DeleteModelBuilder]
      rw [hnil, hv]
      simp only [hid]
      exact ⟨_, rfl⟩
  | GetModel p =>
    cases p with
    | none => simp [accepts] at h
    | some o =>
      simp only [accepts, validationError, Bool.and_eq_true, Option.isNone_iff_eq_none,
        Option.isSome_iff_exists] at h
      obtain ⟨hv, modelID, hid⟩ := h
      split at hv
      · cases hv
      rename_i hnil
      simp only [builderOf, GetModelBuilder]
      rw [hnil, hv]
      simp only [hid]
      exact ⟨_, rfl⟩
  | ListModels p =>
    simp only [accepts, validationError, Bool.and_eq_true, Option.isNone_iff_eq_none,
      Option.isSome_iff_exists] at h
    obtain ⟨hv, o, rfl⟩ := h
    simp only [builderOf, ListModelsBuilder]
    rw [hv]
    exact ⟨_, rfl⟩

/-- The request spec an operation hands to `Build` has a URL when the service URL parses. -/
theorem builderOf_URL (core : Core) (lt : LanguageTranslatorV3) (operation : AnyOptions)
    (b : RequestBuilder)
    (hurl : ∀ pathSegments pathParameters,
      core.URLParses lt.service.Options.URL pathSegments pathParameters = true)
    (h : builderOf core lt operation = .ok b) : ∃ url, b.URL = some url := by
  cases operation with
  | Translate p =>
    obtain ⟨o, rfl, rfl⟩ := TranslateBuilder_ok _ _ _ _ h
    exact ⟨_, if_pos (hurl _ _)⟩
  | Identify p =>
    obtain ⟨o, rfl, rfl⟩ := IdentifyBuilder_ok _ _ _ _ h
    exact ⟨_, if_pos (hurl _ _)⟩
  | ListIdentifiableLanguages p =>
    obtain ⟨o, rfl, rfl⟩ := ListIdentifiableLanguagesBuilder_ok _ _ _ _ h
    exact ⟨_, if_pos (hurl _ _)⟩
  | CreateModel p =>
    obtain ⟨o, baseModelID, rfl, -, -, rfl⟩ := CreateModelBuilder_ok _ _ _ _ h
    exact ⟨_, if_pos (hurl _ _)⟩
  | DeleteModel p =>
    obtain ⟨o, modelID, rfl, -, rfl⟩ := DeleteModelBuilder_ok _ _ _ _ h
    exact ⟨_, if_pos (hurl _ _)⟩
  | GetModel p =>
    obtain ⟨o, modelID, rfl, -, rfl⟩ := GetModelBuilder_ok _ _ _ _ h
    exact ⟨_, if_pos (hurl _ _)⟩
  | ListModels p =>
    obtain ⟨o, rfl, rfl⟩ := ListModelsBuilder_ok _ _ _ _ h
    exact ⟨_, if_pos (hurl _ _)⟩

/-- An operation sends one request, with its decode target, for every options value it accepts
when the service URL parses. -/
theorem call_sent_of_accepts (core : Core) (lt : LanguageTranslatorV3) (operation : AnyOptions)
    (h : accepts core operation = true)
    (hurl : ∀ pathSegments pathParameters,
      core.URLParses lt.service.Options.URL pathSegments pathParameters = true) :
    ∃ request, (call core lt operation).sent = [(request, decodeTargetOf operation)] := by
  obtain ⟨b, hb⟩ := builderOf_of_accepts core lt operation h
  obtain ⟨url, hburl⟩ := builderOf_URL core lt operation b hurl hb
  have hbuild : b.Build = .ok ⟨b.Method, url, b.Header, b.Query, b.Body⟩ := by
    simp only [RequestBuilder.Build, hburl]
  rw [call_eq, hb, buildAndRequest_built _ _ _ _ _ hbuild]
  exact ⟨_, rfl⟩

/-! ## The operations and their requests -/

/-- C1: each of the seven operations maps to one fixed HTTP verb, path and body variant.  For
every options value an operation accepts (and a service URL that parses) the operation sends a
request; and for every request an operation sends: `Translate` is a POST to `v3/translate`
without path parameters and with a JSON body; `Identify` a POST to `v3/identify` without path
parameters and with the raw body of content type `text/plain` that holds the `Text`;
`ListIdentifiableLanguages` a GET to `v3/identifiable_languages` without body; `CreateModel` a
POST to `v3/models` without path parameters and with a form-data body; `DeleteModel` a DELETE
and `GetModel` a GET to `v3/models` with the path parameters `[ModelID]` and without body;
`ListModels` a GET to `v3/models` without path parameters and without body.  There are never
more path parameters than path segments, and the body is the one variant named. -/
theorem operation_verb_path_body (core : Core) (lt : LanguageTranslatorV3)
    (operation : AnyOptions) :
    (accepts core operation = true →
      (∀ pathSegments pathParameters,
        core.URLParses lt.service.Options.URL pathSegments pathParameters = true) →
      ∃ request, (call core lt operation).sent = [(request, decodeTargetOf operation)]) ∧
    ∀ request target, (request, target) ∈ (call core lt operation).sent →
      (match operation with
        | .Translate p =>
          request.Method = .POST ∧ request.URL.pathSegments = ["v3/translate"] ∧
            request.URL.pathParameters = [] ∧
            ∃ o, p = some o ∧ request.Body = .JSON (translateBody o)
        | .Identify p =>
          request.Method = .POST ∧ request.URL.pathSegments = ["v3/identify"] ∧
            request.URL.pathParameters = [] ∧
            ∃ o, p = some o ∧ request.Body = .RawBody "text/plain" o.Text
        | .ListIdentifiableLanguages _ =>
          request.Method = .GET ∧ request.URL.pathSegments = ["v3/identifiable_languages"] ∧
            request.URL.pathParameters = [] ∧ request.Body = .None
        | .CreateModel p =>
          request.Method = .POST ∧ request.URL.pathSegments = ["v3/models"] ∧
            request.URL.pathParameters = [] ∧
            ∃ o, p = some o ∧ request.Body = .FormData (createModelParts core o) ∧
              createModelParts core o ≠ []
        | .DeleteModel p =>
          request.Method = .DELETE ∧ request.URL.pathSegments = ["v3/models"] ∧
            (∃ o modelID, p = some o ∧ o.ModelID = some modelID ∧
              request.URL.pathParameters = [modelID]) ∧ request.Body = .None
        | .GetModel p =>
          request.Method = .GET ∧ request.URL.pathSegments = ["v3/models"] ∧
            (∃ o modelID, p = some o ∧ o.ModelID = some modelID ∧
              request.URL.pathParameters = [modelID]) ∧ request.Body = .None
        | .ListModels _ =>
          request.Method = .GET ∧ request.URL.pathSegments = ["v3/models"] ∧
            request.URL.pathParameters = [] ∧ request.Body = .None) ∧
      request.URL.pathParameters.length ≤ request.URL.pathSegments.length := by
  refine ⟨call_sent_of_accepts core lt operation, ?_⟩
  intro request target h
  cases operation with
  | Translate p =>
    obtain ⟨b, url, hb, hurl, -, rfl⟩ := buildAndRequest_sent _ _ _ _ _ _ h
    obtain ⟨o, rfl, rfl⟩ := TranslateBuilder_ok _ _ _ _ hb
    simp only at hurl
    split at hurl <;> cases hurl
    exact ⟨⟨rfl, rfl, rfl, o, rfl, rfl⟩, by simp⟩
  | Identify p =>
    obtain ⟨b, url, hb, hurl, -, rfl⟩ := buildAndRequest_sent _ _ _ _ _ _ h
    obtain ⟨o, rfl, rfl⟩ := IdentifyBuilder_ok _ _ _ _ hb
    simp only at hurl
    split at hurl <;> cases hurl
    exact ⟨⟨rfl, rfl, rfl, o, rfl, rfl⟩, by simp⟩
  | ListIdentifiableLanguages p =>
    obtain ⟨b, url, hb, hurl, -, rfl⟩ := buildAndRequest_sent _ _ _ _ _ _ h
    obtain ⟨o, rfl, rfl⟩ := ListIdentifiableLanguagesBuilder_ok _ _ _ _ hb
    simp only at hurl
    split at hurl <;> cases hurl
    exact ⟨⟨rfl, rfl, rfl, rfl⟩, by simp⟩
  | CreateModel p =>
    obtain ⟨b, url, hb, hurl, -, rfl⟩ := buildAndRequest_sent _ _ _ _ _ _ h
    obtain ⟨o, baseModelID, rfl, -, hfiles, rfl⟩ := CreateModelBuilder_ok _ _ _ _ hb
    simp only at hurl
    split at hurl <;> cases hurl
    refine ⟨⟨rfl, rfl, rfl, o, rfl, rfl, ?_⟩, by simp⟩
    rcases o with ⟨base, name, _ | forcedGlossary, fgName, _ | parallelCorpus, pcName, hs⟩ <;>
      simp [createModelParts] at hfiles ⊢
  | DeleteModel p =>
    obtain ⟨b, url, hb, hurl, -, rfl⟩ := buildAndRequest_sent _ _ _ _ _ _ h
    obtain ⟨o, modelID, rfl, hid, rfl⟩ := DeleteModelBuilder_ok _ _ _ _ hb
    simp only at hurl
    split at hurl <;> cases hurl
    exact ⟨⟨rfl, rfl, ⟨o, modelID, rfl, hid, rfl⟩, rfl⟩, by simp⟩
  | GetModel p =>
    obtain ⟨b, url, hb, hurl, -, rfl⟩ := buildAndRequest_sent _ _ _ _ _ _ h
    obtain ⟨o, modelID, rfl, hid, rfl⟩ := GetModelBuilder_ok _ _ _ _ hb
    simp only at hurl
    split at hurl <;> cases hurl
    exact ⟨⟨rfl, rfl, ⟨o, modelID, rfl, hid, rfl⟩, rfl⟩, by simp⟩
  | ListModels p =>
    obtain ⟨b, url, hb, hurl, -, rfl⟩ := buildAndRequest_sent _ _ _ _ _ _ h
    obtain ⟨o, rfl, rfl⟩ := ListModelsBuilder_ok _ _ _ _ hb
    simp only at hurl
    split at hurl <;> cases hurl
    exact ⟨⟨rfl, rfl, rfl, rfl⟩, by simp⟩

/-- Each of the seven operations, called at `sampleCore` with options it accepts, sends one
request, with the verb, the path segments and the path parameters of the operation. -/
theorem operation_verb_path_body_witness :
    (∃ request, (call sampleCore sampleService sampleTranslateLanguages).sent =
        [(request, decodeTargetOf sampleTranslateLanguages)] ∧
      request.Method = .POST ∧ request.URL.pathSegments = ["v3/translate"] ∧
      request.URL.pathParameters = []) ∧
    (∃ request, (call sampleCore sampleService sampleIdentify).sent =
        [(request, decodeTargetOf sampleIdentify)] ∧
      request.Method = .POST ∧ request.URL.pathSegments = ["v3/identify"] ∧
      request.URL.pathParameters = [] ∧ request.Body = .RawBody "text/plain" (some "Hola")) ∧
    (∃ request, (call sampleCore sampleService sampleListIdentifiableLanguages).sent =
        [(request, decodeTargetOf sampleListIdentifiableLanguages)] ∧
      request.Method = .GET ∧ request.URL.pathSegments = ["v3/identifiable_languages"] ∧
      request.URL.pathParameters = [] ∧ request.Body = .None) ∧
    (∃ request, (call sampleCore sampleService sampleCreateModel).sent =
        [(request, decodeTargetOf sampleCreateModel)] ∧
      request.Method = .POST ∧ request.URL.pathSegments = ["v3/models"] ∧
      request.URL.pathParameters = []) ∧
    (∃ request, (call sampleCore sampleService sampleDeleteModel).sent =
        [(request, decodeTargetOf sampleDeleteModel)] ∧
      request.Method = .DELETE ∧ request.URL.pathSegments = ["v3/models"] ∧
      request.URL.pathParameters = ["en-es-custom"] ∧ request.Body = .None) ∧
    (∃ request, (call sampleCore sampleService sampleGetModel).sent =
        [(request, decodeTargetOf sampleGetModel)] ∧
      request.Method = .GET ∧ request.URL.pathSegments = ["v3/models"] ∧
      request.URL.pathParameters = ["en-es-custom"] ∧ request.Body = .None) ∧
    (∃ request, (call sampleCore sampleService sampleListModels).sent =
        [(request, decodeTargetOf sampleListModels)] ∧
      request.Method = .GET ∧ request.URL.pathSegments = ["v3/models"] ∧
      request.URL.pathParameters = [] ∧ request.Body = .None) := by
  refine ⟨?_, ?_, ?_, ?_, ?_, ?_, ?_⟩
  · obtain ⟨request, hsent⟩ :=
      (operation_verb_path_body sampleCore sampleService sampleTranslateLanguages).1 rfl
        (fun _ _ => rfl)
    have shape := (operation_verb_path_body sampleCore sampleService
      sampleTranslateLanguages).2 request _ (hsent ▸ List.mem_singleton.mpr rfl)
    exact ⟨request, hsent, shape.1.1, shape.1.2.1, shape.1.2.2.1⟩
  · obtain ⟨request, hsent⟩ :=
      (operation_verb_path_body sampleCore sampleService sampleIdentify).1 rfl (fun _ _ => rfl)
    have shape := (operation_verb_path_body sampleCore sampleService
      sampleIdentify).2 request _ (hsent ▸ List.mem_singleton.mpr rfl)
    obtain ⟨o, ho, hbody⟩ := shape.1.2.2.2
    cases ho
    exact ⟨request, hsent, shape.1.1, shape.1.2.1, shape.1.2.2.1, hbody⟩
  · obtain ⟨request, hsent⟩ :=
      (operation_verb_path_body sampleCore sampleService sampleListIdentifiableLanguages).1 rfl
        (fun _ _ => rfl)
    have shape := (operation_verb_path_body sampleCore sampleService
      sampleListIdentifiableLanguages).2 request _ (hsent ▸ List.mem_singleton.mpr rfl)
    exact ⟨request, hsent, shape.1.1, shape.1.2.1, shape.1.2.2.1, shape.1.2.2.2⟩
  · obtain ⟨request, hsent⟩ :=
      (operation_verb_path_body sampleCore sampleService sampleCreateModel).1 rfl
        (fun _ _ => rfl)
    have shape := (operation_verb_path_body sampleCore sampleService
      sampleCreateModel).2 request _ (hsent ▸ List.mem_singleton.mpr rfl)
    exact ⟨request, hsent, shape.1.1, shape.1.2.1, shape.1.2.2.1⟩
  · obtain ⟨request, hsent⟩ :=
      (operation_verb_path_body sampleCore sampleService sampleDeleteModel).1 rfl
        (fun _ _ => rfl)
    have shape := (operation_verb_path_body sampleCore sampleService
      sampleDeleteModel).2 request _ (hsent ▸ List.mem_singleton.mpr rfl)
    obtain ⟨o, modelID, ho, hid, hparams⟩ := shape.1.2.2.1
    cases ho
    cases hid
    exact ⟨request, hsent, shape.1.1, shape.1.2.1, hparams, shape.1.2.2.2⟩
  · obtain ⟨request, hsent⟩ :=
      (operation_verb_path_body sampleCore sampleService sampleGetModel).1 rfl (fun _ _ => rfl)
    have shape := (operation_verb_path_body sampleCore sampleService
      sampleGetModel).2 request _ (hsent ▸ List.mem_singleton.mpr rfl)
    obtain ⟨o, modelID, ho, hid, hparams⟩ := shape.1.2.2.1
    cases ho
    cases hid
    exact ⟨request, hsent, shape.1.1, shape.1.2.1, hparams, shape.1.2.2.2⟩
  · obtain ⟨request, hsent⟩ :=
      (operation_verb_path_body sampleCore sampleService sampleListModels).1 rfl
        (fun _ _ => rfl)
    have shape := (operation_verb_path_body sampleCore sampleService
      sampleListModels).2 request _ (hsent ▸ List.mem_singleton.mpr rfl)
    exact ⟨request, hsent, shape.1.1, shape.1.2.1, shape.1.2.2.1, shape.1.2.2.2⟩

/-- C2: for every operation and every options value it accepts, a request spec is handed to
`Build`; and every request spec an operation hands to `Build` carries the query key `version`
exactly once, with the `Version` of the service's options as its value. -/
theorem version_query_once (core : Core) (lt : LanguageTranslatorV3) (operation : AnyOptions) :
    (accepts core operation = true →
      ∃ b, builderOf core lt operation = .ok b ∧
        b.Query.filter (fun entry => entry.1 = "version") =
          [("version", lt.service.Options.Version)]) ∧
    ∀ b, builderOf core lt operation = .ok b →
      b.Query.filter (fun entry => entry.1 = "version") =
        [("version", lt.service.Options.Version)] := by
  have once : ∀ b, builderOf core lt operation = .ok b →
      b.Query.filter (fun entry => entry.1 = "version") =
        [("version", lt.service.Options.Version)] := by
    intro b h
    cases operation with
    | Translate p =>
      obtain ⟨o, rfl, rfl⟩ := TranslateBuilder_ok _ _ _ _ h
      simp
    | Identify p =>
      obtain ⟨o, rfl, rfl⟩ := IdentifyBuilder_ok _ _ _ _ h
      simp
    | ListIdentifiableLanguages p =>
      obtain ⟨o, rfl, rfl⟩ := ListIdentifiableLanguagesBuilder_ok _ _ _ _ h
      simp
    | CreateModel p =>
      obtain ⟨o, baseModelID, rfl, -, -, rfl⟩ := CreateModelBuilder_ok _ _ _ _ h
      cases o.Name <;> simp [List.filter_cons]
    | DeleteModel p =>
      obtain ⟨o, modelID, rfl, -, rfl⟩ := DeleteModelBuilder_ok _ _ _ _ h
      simp
    | GetModel p =>
      obtain ⟨o, modelID, rfl, -, rfl⟩ := GetModelBuilder_ok _ _ _ _ h
      simp
    | ListModels p =>
      obtain ⟨o, rfl, rfl⟩ := ListModelsBuilder_ok _ _ _ _ h
      cases o.Source <;> cases o.Target <;> cases o.DefaultModels <;> simp [List.filter_cons]
  refine ⟨fun haccepts => ?_, once⟩
  obtain ⟨b, hb⟩ := builderOf_of_accepts core lt operation haccepts
  exact ⟨b, hb, once b hb⟩

/-- Each of the seven operations, called at `sampleCore` with options it accepts, hands `Build`
a request spec whose query has `version` once, with the version of `sampleService`. -/
theorem version_query_once_witness :
    (∃ b, builderOf sampleCore sampleService sampleTranslateLanguages = .ok b ∧
      b.Query.filter (fun entry => entry.1 = "version") = [("version", "2018-05-01")]) ∧
    (∃ b, builderOf sampleCore sampleService sampleIdentify = .ok b ∧
      b.Query.filter (fun entry => entry.1 = "version") = [("version", "2018-05-01")]) ∧
    (∃ b, builderOf sampleCore sampleService sampleListIdentifiableLanguages = .ok b ∧
      b.Query.filter (fun entry => entry.1 = "version") = [("version", "2018-05-01")]) ∧
    (∃ b, builderOf sampleCore sampleService sampleCreateModel = .ok b ∧
      b.Query.filter (fun entry => entry.1 = "version") = [("version", "2018-05-01")]) ∧
    (∃ b, builderOf sampleCore sampleService sampleDeleteModel = .ok b ∧
      b.Query.filter (fun entry => entry.1 = "version") = [("version", "2018-05-01")]) ∧
    (∃ b, builderOf sampleCore sampleService sampleGetModel = .ok b ∧
      b.Query.filter (fun entry => entry.1 = "version") = [("version", "2018-05-01")]) ∧
    (builderOf sampleCore sampleService sampleListModels = .ok sampleListModelsBuilder ∧
      sampleListModelsBuilder.Query.filter (fun entry => entry.1 = "version") =
        [("version", "2018-05-01")]) :=
  ⟨(version_query_once sampleCore sampleService sampleTranslateLanguages).1 rfl,
    (version_query_once sampleCore sampleService sampleIdentify).1 rfl,
    (version_query_once sampleCore sampleService sampleListIdentifiableLanguages).1 rfl,
    (version_query_once sampleCore sampleService sampleCreateModel).1 rfl,
    (version_query_once sampleCore sampleService sampleDeleteModel).1 rfl,
    (version_query_once sampleCore sampleService sampleGetModel).1 rfl,
    rfl, (version_query_once sampleCore sampleService sampleListModels).2
      sampleListModelsBuilder rfl⟩

/-! ## Optional parameters -/

/-- C13: optional parameters are transmitted exactly when set.  For every options value an
operation accepts, a request spec is handed to `Build`.  In every request spec handed to
`Build`, the JSON body of `Translate` has under `text`, `model_id`, `source` and `target` the
value of `Text`, `ModelID`, `Source` and `Target` when that is not nil and no entry when it is,
and no other key; the query of `ListModels` has `source`, `target` and `default` with the value
of `Source`, `Target` and `DefaultModels` when that is not nil (`default` as `true` or `false`)
and not at all when it is; the query of `CreateModel` has `base_model_id` with the value of
`BaseModelID`, and `name` with the value of `Name` when that is not nil and not at all when it
is. -/
theorem optional_parameters (core : Core) (lt : LanguageTranslatorV3)
    (operation : AnyOptions) :
    (accepts core operation = true → ∃ b, builderOf core lt operation = .ok b) ∧
    ∀ b, builderOf core lt operation = .ok b →
      match operation with
      | .Translate p =>
        ∃ o body, p = some o ∧ b.Body = .JSON body ∧
          mapGet "text" body = o.Text.map .stringSlice ∧
          mapGet "model_id" body = o.ModelID.map .stringPointer ∧
          mapGet "source" body = o.Source.map .stringPointer ∧
          mapGet "target" body = o.Target.map .stringPointer ∧
          (∀ key, mapGet key body ≠ none → key ∈ ["text", "model_id", "source", "target"]) ∧
          (body.map Prod.fst).Nodup
      | .ListModels p =>
        ∃ o, p = some o ∧
          queryValues "source" b.Query = o.Source.toList ∧
          queryValues "target" b.Query = o.Target.toList ∧
          queryValues "default" b.Query =
            (o.DefaultModels.map (fun d => if d = true then "true" else "false")).toList
      | .CreateModel p =>
        ∃ o baseModelID, p = some o ∧ o.BaseModelID = some baseModelID ∧
          queryValues "base_model_id" b.Query = [baseModelID] ∧
          queryValues "name" b.Query = o.Name.toList
      | _ => True := by
  refine ⟨builderOf_of_accepts core lt operation, ?_⟩
  intro b h
  cases operation with
  | Translate p =>
    obtain ⟨o, rfl, rfl⟩ := TranslateBuilder_ok _ _ _ _ h
    refine ⟨o, translateBody o, rfl, rfl, ?_⟩
    rcases o with ⟨_ | text, _ | modelID, _ | source, _ | target, headers⟩ <;>
      simp [translateBody, mapSet, mapGet] <;>
      (intro key hkey
       split_ifs at hkey <;> simp_all)
  | ListModels p =>
    obtain ⟨o, rfl, rfl⟩ := ListModelsBuilder_ok _ _ _ _ h
    refine ⟨o, rfl, ?_⟩
    rcases o with ⟨_ | source, _ | target, _ | defaultModels, headers⟩ <;>
      simp [queryValues, List.filter_cons, SprintBool]
  | CreateModel p =>
    obtain ⟨o, baseModelID, rfl, hbase, -, rfl⟩ := CreateModelBuilder_ok _ _ _ _ h
    refine ⟨o, baseModelID, rfl, hbase, ?_⟩
    cases o.Name <;> simp [queryValues, List.filter_cons]
  | Identify p => trivial
  | ListIdentifiableLanguages p => trivial
  | DeleteModel p => trivial
  | GetModel p => trivial

/-- The request specs of `sampleTranslateLanguages`, `sampleListModels` and `sampleCreateModel`:
the body of the first has `text`, `source` and `target` and no `model_id`, the query of the
second has the three filters, the query of the third has `base_model_id` and `name`. -/
theorem optional_parameters_witness :
    (builderOf sampleCore sampleService sampleTranslateLanguages =
        .ok sampleTranslateLanguagesBuilder ∧
      ∃ body, sampleTranslateLanguagesBuilder.Body = .JSON body ∧
        mapGet "text" body = some (.stringSlice ["Hello", "World"]) ∧
        mapGet "model_id" body = none ∧
        mapGet "source" body = some (.stringPointer "en") ∧
        mapGet "target" body = some (.stringPointer "es")) ∧
    (∃ b, builderOf sampleCore sampleService sampleListModels = .ok b ∧
      queryValues "source" b.Query = ["en"] ∧ queryValues "target" b.Query = ["es"] ∧
      queryValues "default" b.Query = ["true"]) ∧
    (∃ b, builderOf sampleCore sampleService sampleCreateModel = .ok b ∧
      queryValues "base_model_id" b.Query = ["en-es"] ∧
      queryValues "name" b.Query = ["custom"]) := by
  refine ⟨?_, ?_, ?_⟩
  · obtain ⟨o, body, ho, hbody, htext, hmodel, hsource, htarget, -⟩ :=
      (optional_parameters sampleCore sampleService sampleTranslateLanguages).2
        sampleTranslateLanguagesBuilder rfl
    cases ho
    exact ⟨rfl, body, hbody, htext, hmodel, hsource, htarget⟩
  · obtain ⟨b, hb⟩ := (optional_parameters sampleCore sampleService sampleListModels).1 rfl
    obtain ⟨o, ho, hsource, htarget, hdefault⟩ :=
      (optional_parameters sampleCore sampleService sampleListModels).2 b hb
    cases ho
    exact ⟨b, hb, hsource, htarget, hdefault⟩
  · obtain ⟨b, hb⟩ := (optional_parameters sampleCore sampleService sampleCreateModel).1 rfl
    obtain ⟨o, baseModelID, ho, hbase, hquery, hname⟩ :=
      (optional_parameters sampleCore sampleService sampleCreateModel).2 b hb
    cases ho
    cases hbase
    exact ⟨b, hb, hquery, hname⟩

end GoSDK
